import Mathlib

/-!
# perf-utils: the raw profiler (`raw_profiler.go`)

A shallow embedding of `rawProfiler`, the aggregator that opens one hardware
counter per entry of the compiled-in event catalog, fans lifecycle calls out
to every held counter handle and reduces their readings into one `RawProfile`.

The single-counter abstraction (`NewProfiler` and the `Profiler` interface) is
a collaborator: it is a parameter of every definition, and it may answer each
call depending on everything that was called before.
-/

namespace perf

/-! ## Error values -/

/-- A Go error value that is not a `multierr` composite. `noProfiler` is the
value behind the package variable `ErrNoProfiler`; every other plain error is
identified by a code. -/
inductive PlainError where
  | noProfiler
  | errno (code : Nat)
  deriving DecidableEq, Repr

/-- A non-nil Go `error`: either a plain error or a `multierr` composite
holding a flat list of plain errors. -/
inductive GoError where
  | plain (e : PlainError)
  | multi (errors : List PlainError)
  deriving DecidableEq, Repr

/-- The Go interface type `error`; `none` is `nil`. -/
abbrev error := Option GoError

/-- Modelled from the spec: the package variable `ErrNoProfiler` (declared
outside `raw_profiler.go`), the distinguished "no profiler configured" error. -/
def ErrNoProfiler : error := some (GoError.plain PlainError.noProfiler)

namespace multierr

/-- Modelled from the spec: `multierr.Errors`, the failures a composite error
"represents" (glossary). The function belongs to the imported library
go.uber.org/multierr, which is not under src/; the definition follows its
documented behaviour: nothing for `nil`, the error itself for an error that is
no composite, the held list for a composite. -/
def Errors : error → List PlainError
  | none => []
  | some (GoError.plain e) => [e]
  | some (GoError.multi es) => es

/-- Modelled from the spec: `multierr.Append`, which composes collected
failures into one error value (§4.2, §7). The function belongs to the imported
library go.uber.org/multierr, which is not under src/; the definition follows
its documented behaviour: a nil side yields the other side unchanged; two
non-nil sides yield a composite of the failures of the left followed by those
of the right, a side that is itself a composite being flattened. -/
def Append (left right : error) : error :=
  match left, right with
  | none, _ => right
  | some l, none => some l
  | some l, some r => some (GoError.multi (Errors (some l) ++ Errors (some r)))

end multierr

/-! ## The collaborator and the record of its calls -/

/-- A counter handle (a value of the Go interface `Profiler`), identified by
a number. -/
abbrev Profiler := Nat

/-- Modelled from the spec: the struct `ProfileValue` a successful read of one
handle yields (declared outside `raw_profiler.go`); the source uses the fields
`Value`, `TimeEnabled` and `TimeRunning`, all `uint64`. -/
structure ProfileValue where
  Value : Nat
  TimeEnabled : Nat
  TimeRunning : Nat
  deriving DecidableEq, Repr

/-- The four lifecycle methods of the `Profiler` interface. -/
inductive Op where
  | Start
  | Reset
  | Stop
  | Close
  deriving DecidableEq, Repr

deriving instance DecidableEq for Except

/-- One call made to the collaborator, with what it answered. -/
inductive Event where
  | NewProfiler (profilerType config : Nat) (pid cpu : Int) (opts : List Int)
      (result : Except GoError Profiler)
  | lifecycle (op : Op) (profiler : Profiler) (result : error)
  | Profile (profiler : Profiler) (result : Except GoError ProfileValue)
  deriving DecidableEq

/-- Every collaborator call made so far, oldest first. -/
abbrev History := List Event

/-- The error a collaborator call returned (`nil` when it succeeded). -/
def Event.err : Event → error
  | Event.NewProfiler _ _ _ _ _ (Except.error e) => some e
  | Event.NewProfiler _ _ _ _ _ (Except.ok _) => none
  | Event.lifecycle _ _ r => r
  | Event.Profile _ (Except.error e) => some e
  | Event.Profile _ (Except.ok _) => none

/-- The single-counter abstraction (`NewProfiler` and the methods of the
interface `Profiler`, declared outside `raw_profiler.go`). Each answer may
depend on the whole history of earlier calls, so handles are stateful and need
not be independent. `NewProfiler` and `Profile` answer a value or a non-nil
error, since the source looks at the value only when the error is nil; a read
answering a nil value together with a nil error is not covered. -/
structure Collaborator where
  NewProfiler : History → Nat → Nat → Int → Int → List Int → Except GoError Profiler
  lifecycle : History → Op → Profiler → error
  Profile : History → Profiler → Except GoError ProfileValue

/-- The call recorded in an event, answered by the collaborator after `hist`. -/
def Collaborator.answer (env : Collaborator) (hist : History) : Event → Event
  | Event.NewProfiler t c pid cpu opts _ =>
    Event.NewProfiler t c pid cpu opts (env.NewProfiler hist t c pid cpu opts)
  | Event.lifecycle op h _ => Event.lifecycle op h (env.lifecycle hist op h)
  | Event.Profile h _ => Event.Profile h (env.Profile hist h)

/-- The events `evs` are calls made one after the other, starting after
`hist`, each recorded with the answer the collaborator gave to it then. -/
def Answered (env : Collaborator) : History → List Event → Prop
  | _, [] => True
  | hist, ev :: rest => env.answer hist ev = ev ∧ Answered env (hist ++ [ev]) rest

/-- The composite of the errors of a sequence of calls, appended to `err` in
the order of the calls. -/
def appendErrs (err : error) (evs : List Event) : error :=
  evs.foldl (fun acc ev => multierr.Append acc ev.err) err

/-! ## The event catalog -/

def INT_MISC_RECOVERY_CYCLES_ANY : Nat := 0x20010d
def CYCLE_ACTIVITY_STALLS_L2_MISS : Nat := 0x50005a3
def CYCLE_ACTIVITY_STALLS_L3_MISS : Nat := 0x60006a3
def CYCLE_ACTIVITY_STALLS_L1D_MISS : Nat := 0xc000ca3
def CYCLE_ACTIVITY_STALLS_MEM_ANY : Nat := 0x140014a3

/-- The constant `unix.PERF_TYPE_RAW` of golang.org/x/sys/unix. -/
def PERF_TYPE_RAW : Nat := 4

/-- One catalog entry; the field `Type` of the source is `Type_` here. -/
structure PerfRawEvent where
  Key : String
  Type_ : Nat
  Config : Nat
  Value : Nat
  deriving DecidableEq, Repr

def events : List PerfRawEvent :=
  [ { Key := "INT_MISC.RECOVERY_CYCLES_ANY", Type_ := PERF_TYPE_RAW,
      Config := INT_MISC_RECOVERY_CYCLES_ANY, Value := 0 },
    { Key := "CYCLE_ACTIVITY.STALLS_L2_MISS", Type_ := PERF_TYPE_RAW,
      Config := CYCLE_ACTIVITY_STALLS_L2_MISS, Value := 0 },
    { Key := "CYCLE_ACTIVITY.STALLS_L3_MISS", Type_ := PERF_TYPE_RAW,
      Config := CYCLE_ACTIVITY_STALLS_L3_MISS, Value := 0 },
    { Key := "CYCLE_ACTIVITY.STALLS_L1D_MISS", Type_ := PERF_TYPE_RAW,
      Config := CYCLE_ACTIVITY_STALLS_L1D_MISS, Value := 0 },
    { Key := "CYCLE_ACTIVITY.STALLS_MEM_ANY", Type_ := PERF_TYPE_RAW,
      Config := CYCLE_ACTIVITY_STALLS_MEM_ANY, Value := 0 } ]

/-- The Go conversion `int(c)` of a `uint64` to an `int` of `w` bits: the
value is reduced modulo `2 ^ w` and read as a two's-complement number. -/
def intOfUint64 (w : Nat) (c : Nat) : Int :=
  if c % 2 ^ w < 2 ^ (w - 1) then ((c % 2 ^ w : Nat) : Int)
  else ((c % 2 ^ w : Nat) : Int) - ((2 ^ w : Nat) : Int)

/-- The conversion `int(perfRawEvent.Config)` on a 64-bit platform. -/
def int (c : Nat) : Int := intOfUint64 64 c

/-! ## The aggregator -/

/-- The Go map `map[int]Profiler`: its entries, in the order a `range`
statement visits them. The keys of a map are distinct; the order is arbitrary,
so a statement about every list is a statement about every visiting order. -/
abbrev ProfilerMap := List (Int × Profiler)

structure rawProfiler where
  profilers : ProfilerMap
  deriving DecidableEq, Repr

/-- The map assignment `m[k] = v`: replaces the value of a key already
present, adds the entry otherwise. -/
def mapInsert (m : ProfilerMap) (k : Int) (v : Profiler) : ProfilerMap :=
  if m.any (fun e => decide (e.1 = k)) then
    m.map (fun e => if e.1 = k then (k, v) else e)
  else m ++ [(k, v)]

/-- The loop of `NewRawProfiler` over the remaining catalog entries. -/
def newRawProfilerLoop (env : Collaborator) (pid cpu : Int) (opts : List Int) :
    List PerfRawEvent → ProfilerMap → error → History → ProfilerMap × error × History
  | [], profilers, e, hist => (profilers, e, hist)
  | perfRawEvent :: rest, profilers, e, hist =>
    let r := env.NewProfiler hist perfRawEvent.Type_ perfRawEvent.Config pid cpu opts
    let hist1 := hist ++ [Event.NewProfiler perfRawEvent.Type_ perfRawEvent.Config pid cpu opts r]
    match r with
    | Except.error err =>
      newRawProfilerLoop env pid cpu opts rest profilers (multierr.Append e (some err)) hist1
    | Except.ok tmpProfiler =>
      newRawProfilerLoop env pid cpu opts rest
        (mapInsert profilers (int perfRawEvent.Config) tmpProfiler) e hist1

/-- `NewRawProfiler(pid, cpu, opts...)`: the returned aggregator (a Go
interface value, `none` being nil) and error, and the history afterwards. -/
def NewRawProfiler (env : Collaborator) (hist : History) (pid cpu : Int) (opts : List Int) :
    (Option rawProfiler × error) × History :=
  let out := newRawProfilerLoop env pid cpu opts events [] none hist
  ((some { profilers := out.1 }, out.2.1), out.2.2)

/-- The loop shared in shape by `Start`, `Reset`, `Stop` and `Close`:
`for _, profiler := range p.profilers { err = multierr.Append(err, profiler.Op()) }`. -/
def fanOut (env : Collaborator) (op : Op) : ProfilerMap → error → History → error × History
  | [], err, hist => (err, hist)
  | (_, profiler) :: rest, err, hist =>
    let r := env.lifecycle hist op profiler
    fanOut env op rest (multierr.Append err r) (hist ++ [Event.lifecycle op profiler r])

def rawProfiler.Start (env : Collaborator) (p : rawProfiler) (hist : History) : error × History :=
  if p.profilers.length = 0 then (ErrNoProfiler, hist)
  else fanOut env Op.Start p.profilers none hist

def rawProfiler.Reset (env : Collaborator) (p : rawProfiler) (hist : History) : error × History :=
  fanOut env Op.Reset p.profilers none hist

def rawProfiler.Stop (env : Collaborator) (p : rawProfiler) (hist : History) : error × History :=
  fanOut env Op.Stop p.profilers none hist

def rawProfiler.Close (env : Collaborator) (p : rawProfiler) (hist : History) : error × History :=
  fanOut env Op.Close p.profilers none hist

/-- The lifecycle method of the aggregator that `op` names. -/
def rawProfiler.lifecycle (env : Collaborator) (p : rawProfiler) (op : Op) (hist : History) :
    error × History :=
  match op with
  | Op.Start => p.Start env hist
  | Op.Reset => p.Reset env hist
  | Op.Stop => p.Stop env hist
  | Op.Close => p.Close env hist

/-- Modelled from the spec: the struct `RawProfile` (declared outside
`raw_profiler.go`), the snapshot: optional shared timing and one optional value
per named event. A nil pointer field is `none`. -/
structure RawProfile where
  TimeEnabled : Option Nat
  TimeRunning : Option Nat
  INT_MISC_RECOVERY_CYCLES_ANY : Option Nat
  CYCLE_ACTIVITY_STALLS_L2_MISS : Option Nat
  CYCLE_ACTIVITY_STALLS_L3_MISS : Option Nat
  CYCLE_ACTIVITY_STALLS_L1D_MISS : Option Nat
  CYCLE_ACTIVITY_STALLS_MEM_ANY : Option Nat
  deriving DecidableEq, Repr

/-- The zero value `&RawProfile{}`. -/
def RawProfile.empty : RawProfile :=
  { TimeEnabled := none, TimeRunning := none, INT_MISC_RECOVERY_CYCLES_ANY := none,
    CYCLE_ACTIVITY_STALLS_L2_MISS := none, CYCLE_ACTIVITY_STALLS_L3_MISS := none,
    CYCLE_ACTIVITY_STALLS_L1D_MISS := none, CYCLE_ACTIVITY_STALLS_MEM_ANY := none }

/-- The slot of the snapshot named after a catalog event (by its `Key`). -/
def RawProfile.slot (r : RawProfile) (e : PerfRawEvent) : Option Nat :=
  if e.Key = "INT_MISC.RECOVERY_CYCLES_ANY" then r.INT_MISC_RECOVERY_CYCLES_ANY
  else if e.Key = "CYCLE_ACTIVITY.STALLS_L2_MISS" then r.CYCLE_ACTIVITY_STALLS_L2_MISS
  else if e.Key = "CYCLE_ACTIVITY.STALLS_L3_MISS" then r.CYCLE_ACTIVITY_STALLS_L3_MISS
  else if e.Key = "CYCLE_ACTIVITY.STALLS_L1D_MISS" then r.CYCLE_ACTIVITY_STALLS_L1D_MISS
  else if e.Key = "CYCLE_ACTIVITY.STALLS_MEM_ANY" then r.CYCLE_ACTIVITY_STALLS_MEM_ANY
  else none

/-- The `switch` of `Profile`: the first case whose test
`(profilerType ^ CONSTANT) == 0` holds stores the value; no case, no store. -/
def storeValue (rawProfile : RawProfile) (profilerType : Int) (value : Nat) : RawProfile :=
  if Int.xor profilerType (INT_MISC_RECOVERY_CYCLES_ANY : Int) = 0 then
    { rawProfile with INT_MISC_RECOVERY_CYCLES_ANY := some value }
  else if Int.xor profilerType (CYCLE_ACTIVITY_STALLS_L2_MISS : Int) = 0 then
    { rawProfile with CYCLE_ACTIVITY_STALLS_L2_MISS := some value }
  else if Int.xor profilerType (CYCLE_ACTIVITY_STALLS_L3_MISS : Int) = 0 then
    { rawProfile with CYCLE_ACTIVITY_STALLS_L3_MISS := some value }
  else if Int.xor profilerType (CYCLE_ACTIVITY_STALLS_L1D_MISS : Int) = 0 then
    { rawProfile with CYCLE_ACTIVITY_STALLS_L1D_MISS := some value }
  else if Int.xor profilerType (CYCLE_ACTIVITY_STALLS_MEM_ANY : Int) = 0 then
    { rawProfile with CYCLE_ACTIVITY_STALLS_MEM_ANY := some value }
  else rawProfile

/-- The body of the loop of `Profile` for a read that succeeded. -/
def recordValue (rawProfile : RawProfile) (profilerType : Int) (profileVal : ProfileValue) :
    RawProfile :=
  let r1 : RawProfile :=
    if rawProfile.TimeEnabled = none then
      { rawProfile with TimeEnabled := some profileVal.TimeEnabled }
    else rawProfile
  let r2 : RawProfile :=
    if r1.TimeRunning = none then { r1 with TimeRunning := some profileVal.TimeRunning }
    else r1
  storeValue r2 profilerType profileVal.Value

/-- The loop of `Profile` over the remaining map entries. -/
def profileLoop (env : Collaborator) :
    ProfilerMap → error → RawProfile → History → error × RawProfile × History
  | [], err, rawProfile, hist => (err, rawProfile, hist)
  | (profilerType, profiler) :: rest, err, rawProfile, hist =>
    let r := env.Profile hist profiler
    let hist1 := hist ++ [Event.Profile profiler r]
    match r with
    | Except.error err2 =>
      profileLoop env rest (multierr.Append err (some err2)) rawProfile hist1
    | Except.ok profileVal =>
      profileLoop env rest (multierr.Append err none)
        (recordValue rawProfile profilerType profileVal) hist1

/-- `Profile()`: the returned snapshot pointer (`none` being nil) and error,
and the history afterwards. -/
def rawProfiler.Profile (env : Collaborator) (p : rawProfiler) (hist : History) :
    (Option RawProfile × error) × History :=
  let out := profileLoop env p.profilers none RawProfile.empty hist
  if (multierr.Errors out.1).length = p.profilers.length then ((none, out.1), out.2.2)
  else ((some out.2.1, none), out.2.2)

/-- The snapshot `Profile` has built when its loop ends, before the
total-failure test decides whether it is returned. -/
def rawProfiler.builtProfile (env : Collaborator) (p : rawProfiler) (hist : History) :
    RawProfile :=
  (profileLoop env p.profilers none RawProfile.empty hist).2.1

/-- The five methods of the aggregator. -/
inductive Method where
  | Start
  | Reset
  | Stop
  | Close
  | Profile
  deriving DecidableEq, Repr

/-- One method call on the aggregator `st.1` after the history `st.2`: the
aggregator and the history afterwards. No method of the source assigns to
`p.profilers` or to one of its entries, so the aggregator afterwards is the
one before. -/
def rawProfiler.call (env : Collaborator) (m : Method) (st : rawProfiler × History) :
    rawProfiler × History :=
  match m with
  | Method.Start => (st.1, (st.1.Start env st.2).2)
  | Method.Reset => (st.1, (st.1.Reset env st.2).2)
  | Method.Stop => (st.1, (st.1.Stop env st.2).2)
  | Method.Close => (st.1, (st.1.Close env st.2).2)
  | Method.Profile => (st.1, (st.1.Profile env st.2).2)

/-- A finite sequence of method calls, one after the other. -/
def rawProfiler.calls (env : Collaborator) :
    List Method → rawProfiler × History → rawProfiler × History
  | [], st => st
  | m :: ms, st => rawProfiler.calls env ms (rawProfiler.call env m st)

/-- The snapshot obtained from `rawProfile` by recording, in order, the reads
that succeeded among the given map entries paired with the events of their
reads. -/
def recordReads (rawProfile : RawProfile) : List ((Int × Profiler) × Event) → RawProfile
  | [] => rawProfile
  | (e, Event.Profile _ (Except.ok profileVal)) :: rest =>
    recordReads (recordValue rawProfile e.1 profileVal) rest
  | _ :: rest => recordReads rawProfile rest

/-- The map entry an open attempt for a catalog entry contributes: the
returned handle under the key `int(Config)` when the attempt succeeded. -/
def opened : PerfRawEvent × Event → Option (Int × Profiler)
  | (en, Event.NewProfiler _ _ _ _ _ (Except.ok h)) => some (int en.Config, h)
  | _ => none

/-! ## Concrete collaborators and aggregators -/

/-- A collaborator whose answers do not depend on the history: `openErr` tells
which configuration values fail to open (a handle that opens is numbered by the
count of earlier calls), `life` what each lifecycle call returns and `read`
what each read returns. -/
def tableEnv (openErr : Nat → error) (life : Op → Profiler → error)
    (read : Profiler → Except GoError ProfileValue) : Collaborator :=
  { NewProfiler := fun hist _ config _ _ _ =>
      match openErr config with
      | some e => Except.error e
      | none => Except.ok hist.length
    lifecycle := fun _ op h => life op h
    Profile := fun _ h => read h }

/-- Every call succeeds; every read yields value 7 and timing (100, 100). -/
def envOk : Collaborator :=
  tableEnv (fun _ => none) (fun _ _ => none) (fun _ => Except.ok ⟨7, 100, 100⟩)

/-- The lifecycle calls of handle 1 fail with a plain error, all others succeed. -/
def envFirstFails : Collaborator :=
  tableEnv (fun _ => none)
    (fun _ h => if h = 1 then some (GoError.plain (PlainError.errno 9)) else none)
    (fun _ => Except.ok ⟨7, 100, 100⟩)

/-- Reads of handle 1 yield value 7 with timing (100, 100); reads of every
other handle fail with one plain error. -/
def envBFails : Collaborator :=
  tableEnv (fun _ => none) (fun _ _ => none)
    (fun h => if h = 1 then Except.ok ⟨7, 100, 100⟩
      else Except.error (GoError.plain (PlainError.errno 9)))

/-- Every read fails: that of handle 1 with a composite of two errors, that
of every other handle with one plain error. -/
def envAllFailOneComposite : Collaborator :=
  tableEnv (fun _ => none) (fun _ _ => none)
    (fun h => if h = 1 then
        Except.error (GoError.multi [PlainError.errno 5, PlainError.errno 11])
      else Except.error (GoError.plain (PlainError.errno 9)))

/-- Reads of handle 1 yield value 7 with timing (100, 100); reads of every
other handle fail with a composite of two errors. -/
def envBFailsComposite : Collaborator :=
  tableEnv (fun _ => none) (fun _ _ => none)
    (fun h => if h = 1 then Except.ok ⟨7, 100, 100⟩
      else Except.error (GoError.multi [PlainError.errno 5, PlainError.errno 11]))

/-- The snapshot in which event A has value 7, the timing is (100, 100) and
every other slot is unset. -/
def snapshotA7 : RawProfile :=
  { TimeEnabled := some 100, TimeRunning := some 100,
    INT_MISC_RECOVERY_CYCLES_ANY := some 7, CYCLE_ACTIVITY_STALLS_L2_MISS := none,
    CYCLE_ACTIVITY_STALLS_L3_MISS := none, CYCLE_ACTIVITY_STALLS_L1D_MISS := none,
    CYCLE_ACTIVITY_STALLS_MEM_ANY := none }

/-- The open of event A (`INT_MISC.RECOVERY_CYCLES_ANY`) fails with one plain
error; every other call succeeds. -/
def envAFailsOpen : Collaborator :=
  tableEnv
    (fun config => if config = INT_MISC_RECOVERY_CYCLES_ANY then
        some (GoError.plain (PlainError.errno 2))
      else none)
    (fun _ _ => none) (fun _ => Except.ok ⟨7, 100, 100⟩)

/-- An aggregator holding nothing. -/
def pEmpty : rawProfiler := { profilers := [] }

/-- An aggregator holding handle 1 for event A (`INT_MISC.RECOVERY_CYCLES_ANY`)
and handle 2 for event B (`CYCLE_ACTIVITY.STALLS_L2_MISS`). -/
def pAB : rawProfiler :=
  { profilers := [(int INT_MISC_RECOVERY_CYCLES_ANY, 1), (int CYCLE_ACTIVITY_STALLS_L2_MISS, 2)] }

/-- The aggregator `pAB` with its entries visited in the other order. -/
def pBA : rawProfiler :=
  { profilers := [(int CYCLE_ACTIVITY_STALLS_L2_MISS, 2), (int INT_MISC_RECOVERY_CYCLES_ANY, 1)] }

/-- Every call succeeds; the read of handle `h` yields value `h` with timing
(100 * h, 100 * h). -/
def envTwoTimings : Collaborator :=
  tableEnv (fun _ => none) (fun _ _ => none) (fun h => Except.ok ⟨h, 100 * h, 100 * h⟩)

/-- An aggregator in which A never opened and only B is held, as handle 2. -/
def pB : rawProfiler := { profilers := [(int CYCLE_ACTIVITY_STALLS_L2_MISS, 2)] }

/-! ## Composite errors -/

theorem multierr.Append_none_right (l : error) : multierr.Append l none = l := by
  cases l <;> rfl

theorem multierr.Append_eq_none (l r : error) :
    multierr.Append l r = none ↔ l = none ∧ r = none := by
  cases l <;> cases r <;> simp [multierr.Append]

theorem multierr.Errors_Append (l r : error) :
    multierr.Errors (multierr.Append l r) = multierr.Errors l ++ multierr.Errors r := by
  cases l <;> cases r <;> simp [multierr.Append, multierr.Errors]

theorem appendErrs_cons (err : error) (ev : Event) (evs : List Event) :
    appendErrs err (ev :: evs) = appendErrs (multierr.Append err ev.err) evs := rfl

theorem appendErrs_eq_none (evs : List Event) (err : error) :
    appendErrs err evs = none ↔ err = none ∧ ∀ ev ∈ evs, ev.err = none := by
  induction evs generalizing err with
  | nil => simp [appendErrs]
  | cons ev evs ih =>
    rw [appendErrs_cons, ih, multierr.Append_eq_none]
    simp [and_assoc]

theorem Errors_appendErrs (evs : List Event) (err : error) :
    multierr.Errors (appendErrs err evs)
      = multierr.Errors err ++ evs.flatMap (fun ev => multierr.Errors ev.err) := by
  induction evs generalizing err with
  | nil => simp [appendErrs]
  | cons ev evs ih =>
    rw [appendErrs_cons, ih, multierr.Errors_Append]
    simp

/-- A plain or nil error stands for at most one failure. -/
theorem Errors_length_of_not_multi (e : error) (h : ∀ es, e ≠ some (GoError.multi es)) :
    (multierr.Errors e).length = if e = none then 0 else 1 := by
  rcases e with _ | e
  · rfl
  · cases e with
    | plain a => rfl
    | multi es => exact absurd rfl (h es)

theorem flatMap_Errors_length (evs : List Event)
    (h : ∀ ev ∈ evs, ∀ es, ev.err ≠ some (GoError.multi es)) :
    (evs.flatMap (fun ev => multierr.Errors ev.err)).length
      = (evs.filter (fun ev => decide (ev.err ≠ none))).length := by
  induction evs with
  | nil => rfl
  | cons ev evs ih =>
    have h1 := Errors_length_of_not_multi ev.err (h ev (List.mem_cons_self _ _))
    have h2 := ih (fun e he => h e (List.mem_cons_of_mem _ he))
    rw [List.flatMap_cons, List.length_append, h1, h2, List.filter_cons]
    by_cases hn : ev.err = none
    · simp [hn]
    · simp [hn]
      omega

/-! ## The lifecycle fan-out -/

theorem fanOut_spec (env : Collaborator) (op : Op) (l : ProfilerMap) (err : error)
    (hist : History) :
    ∃ evs : List Event,
      fanOut env op l err hist = (appendErrs err evs, hist ++ evs) ∧
      Answered env hist evs ∧
      List.Forall₂ (fun e ev => ∃ r, ev = Event.lifecycle op e.2 r) l evs := by
  induction l generalizing err hist with
  | nil => exact ⟨[], by simp [fanOut, appendErrs], trivial, List.Forall₂.nil⟩
  | cons e rest ih =>
    obtain ⟨k, h⟩ := e
    obtain ⟨evs, h1, h2, h3⟩ := ih (multierr.Append err (env.lifecycle hist op h))
      (hist ++ [Event.lifecycle op h (env.lifecycle hist op h)])
    refine ⟨Event.lifecycle op h (env.lifecycle hist op h) :: evs, ?_, ⟨rfl, h2⟩,
      List.Forall₂.cons ⟨_, rfl⟩ h3⟩
    simp only [fanOut, h1, appendErrs_cons, Event.err, List.append_assoc, List.singleton_append]

theorem lifecycle_eq_fanOut (env : Collaborator) (p : rawProfiler) (op : Op) (hist : History)
    (h : op = Op.Start → p.profilers ≠ []) :
    p.lifecycle env op hist = fanOut env op p.profilers none hist := by
  cases op
  · have hne := h rfl
    have hlen : p.profilers.length ≠ 0 := by simpa using hne
    simp [rawProfiler.lifecycle, rawProfiler.Start, hlen]
  all_goals rfl

theorem appendErrs_eq_plain (evs : List Event) (err : error) (x : PlainError)
    (h : appendErrs err evs = some (GoError.plain x)) :
    err = some (GoError.plain x) ∨ ∃ ev ∈ evs, ev.err = some (GoError.plain x) := by
  induction evs generalizing err with
  | nil => exact Or.inl h
  | cons ev evs ih =>
    rw [appendErrs_cons] at h
    rcases ih _ h with h1 | ⟨ev1, hm, h1⟩
    · rcases err with _ | l
      · exact Or.inr ⟨ev, List.mem_cons_self _ _, by simpa [multierr.Append] using h1⟩
      · rcases hr : ev.err with _ | r
        · rw [hr] at h1
          exact Or.inl (by simpa [multierr.Append] using h1)
        · rw [hr] at h1
          simp [multierr.Append] at h1
    · exact Or.inr ⟨ev1, List.mem_cons_of_mem _ hm, h1⟩

/-! ## Claims about Start, Reset, Stop and Close -/

/-- C5: on an aggregator that holds zero handles, `Start` returns exactly
`ErrNoProfiler` and calls no handle (the history of collaborator calls is
unchanged). On an aggregator that holds at least one handle, `Start` calls
every held handle and returns the composite of what those calls returned; it
returns `ErrNoProfiler` only if one of the handles itself returned it. -/
theorem Start_ErrNoProfiler (env : Collaborator) (p : rawProfiler) (hist : History) :
    (p.profilers = [] → p.Start env hist = (ErrNoProfiler, hist)) ∧
    (p.profilers ≠ [] →
      ∃ evs : List Event,
        p.Start env hist = (appendErrs none evs, hist ++ evs) ∧
        Answered env hist evs ∧
        List.Forall₂ (fun e ev => ∃ r, ev = Event.lifecycle Op.Start e.2 r) p.profilers evs ∧
        ((p.Start env hist).1 = ErrNoProfiler → ∃ ev ∈ evs, ev.err = ErrNoProfiler)) := by
  constructor
  · intro h
    simp [rawProfiler.Start, h]
  · intro h
    obtain ⟨evs, h1, h2, h3⟩ := fanOut_spec env Op.Start p.profilers none hist
    have hs : p.Start env hist = fanOut env Op.Start p.profilers none hist :=
      lifecycle_eq_fanOut env p Op.Start hist (fun _ => h)
    refine ⟨evs, hs.trans h1, h2, h3, ?_⟩
    intro he
    rw [hs, h1] at he
    rcases appendErrs_eq_plain evs none PlainError.noProfiler he with h0 | h0
    · cases h0
    · exact h0

/-- C6: on an aggregator that holds zero handles, each of `Reset`, `Stop` and
`Close` returns a nil error and calls no handle (the history of collaborator
calls is unchanged). -/
theorem Reset_Stop_Close_empty (env : Collaborator) (p : rawProfiler) (hist : History)
    (h : p.profilers = []) :
    p.Reset env hist = (none, hist) ∧ p.Stop env hist = (none, hist) ∧
      p.Close env hist = (none, hist) := by
  simp [rawProfiler.Reset, rawProfiler.Stop, rawProfiler.Close, h, fanOut]

theorem Reset_Stop_Close_empty_witness :
    pEmpty.profilers = [] ∧
    (pEmpty.Reset envFirstFails [] = (none, []) ∧ pEmpty.Stop envFirstFails [] = (none, []) ∧
      pEmpty.Close envFirstFails [] = (none, [])) :=
  ⟨rfl, Reset_Stop_Close_empty envFirstFails pEmpty [] rfl⟩

/-- C7: for `Start` on an aggregator holding at least one handle, and for
`Reset`, `Stop` and `Close` on any aggregator, whatever the handles answer:
the calls made are exactly one call of the corresponding single-counter
operation per held handle, in visiting order, each recorded with the answer the
handle gave; a failing answer stops nothing. -/
theorem lifecycle_calls_each_handle_once (env : Collaborator) (p : rawProfiler) (op : Op)
    (hist : History) (h : op = Op.Start → p.profilers ≠ []) :
    ∃ evs : List Event,
      (p.lifecycle env op hist).2 = hist ++ evs ∧
      Answered env hist evs ∧
      evs.length = p.profilers.length ∧
      List.Forall₂ (fun e ev => ∃ r, ev = Event.lifecycle op e.2 r) p.profilers evs := by
  obtain ⟨evs, h1, h2, h3⟩ := fanOut_spec env op p.profilers none hist
  refine ⟨evs, ?_, h2, h3.length_eq.symm, h3⟩
  rw [lifecycle_eq_fanOut env p op hist h, h1]

theorem lifecycle_calls_each_handle_once_witness :
    (Op.Start = Op.Start → pAB.profilers ≠ []) ∧
    (∃ evs : List Event,
      (pAB.lifecycle envFirstFails Op.Start []).2 = [] ++ evs ∧
      Answered envFirstFails [] evs ∧
      evs.length = pAB.profilers.length ∧
      List.Forall₂ (fun e ev => ∃ r, ev = Event.lifecycle Op.Start e.2 r) pAB.profilers evs) ∧
    (pAB.lifecycle envFirstFails Op.Start []).2
      = [Event.lifecycle Op.Start 1 (some (GoError.plain (PlainError.errno 9))),
         Event.lifecycle Op.Start 2 none] :=
  ⟨by decide, lifecycle_calls_each_handle_once envFirstFails pAB Op.Start [] (by decide), rfl⟩

/-- C8: for `Start` on an aggregator holding at least one handle, and for
`Reset`, `Stop` and `Close` on any aggregator, whatever the handles answer:
the returned error is nil if and only if no handle's call failed; the failures
it stands for are exactly those of the errors the handles returned, in visiting
order, none discarded; and when no handle returned a composite, it holds one
entry per failing handle. -/
theorem lifecycle_composite_error (env : Collaborator) (p : rawProfiler) (op : Op)
    (hist : History) (h : op = Op.Start → p.profilers ≠ []) :
    ∃ evs : List Event,
      (p.lifecycle env op hist).2 = hist ++ evs ∧
      Answered env hist evs ∧
      List.Forall₂ (fun e ev => ∃ r, ev = Event.lifecycle op e.2 r) p.profilers evs ∧
      ((p.lifecycle env op hist).1 = none ↔ ∀ ev ∈ evs, ev.err = none) ∧
      multierr.Errors (p.lifecycle env op hist).1
        = evs.flatMap (fun ev => multierr.Errors ev.err) ∧
      ((∀ ev ∈ evs, ∀ es, ev.err ≠ some (GoError.multi es)) →
        (multierr.Errors (p.lifecycle env op hist).1).length
          = (evs.filter (fun ev => decide (ev.err ≠ none))).length) := by
  obtain ⟨evs, h1, h2, h3⟩ := fanOut_spec env op p.profilers none hist
  rw [lifecycle_eq_fanOut env p op hist h, h1]
  refine ⟨evs, rfl, h2, h3, ?_, ?_, ?_⟩
  · simp [appendErrs_eq_none]
  · rw [Errors_appendErrs]
    rfl
  · intro hp
    rw [Errors_appendErrs]
    exact flatMap_Errors_length evs hp

theorem lifecycle_composite_error_witness :
    (Op.Start = Op.Start → pB.profilers ≠ []) ∧
    (∃ evs : List Event,
      (pB.lifecycle envOk Op.Start []).2 = [] ++ evs ∧
      Answered envOk [] evs ∧
      List.Forall₂ (fun e ev => ∃ r, ev = Event.lifecycle Op.Start e.2 r) pB.profilers evs ∧
      ((pB.lifecycle envOk Op.Start []).1 = none ↔ ∀ ev ∈ evs, ev.err = none) ∧
      multierr.Errors (pB.lifecycle envOk Op.Start []).1
        = evs.flatMap (fun ev => multierr.Errors ev.err) ∧
      ((∀ ev ∈ evs, ∀ es, ev.err ≠ some (GoError.multi es)) →
        (multierr.Errors (pB.lifecycle envOk Op.Start []).1).length
          = (evs.filter (fun ev => decide (ev.err ≠ none))).length)) ∧
    pB.Start envOk [] = (none, [Event.lifecycle Op.Start 2 none]) :=
  ⟨by decide, lifecycle_composite_error envOk pB Op.Start [] (by decide), rfl⟩

/-! ## The read and reduce pass -/

theorem Int_xor_eq_zero (a b : Int) : Int.xor a b = 0 ↔ a = b := by
  cases a <;> cases b <;> simp [Int.xor, Nat.xor_eq_zero]

theorem int_catalog (e : PerfRawEvent) (he : e ∈ events) : int e.Config = (e.Config : Int) := by
  simp only [events, List.mem_cons, List.mem_singleton, List.not_mem_nil, or_false] at he
  rcases he with rfl | rfl | rfl | rfl | rfl <;> decide

theorem slot_of_Key_1 (rp : RawProfile) (e : PerfRawEvent)
    (hk : e.Key = "INT_MISC.RECOVERY_CYCLES_ANY") :
    rp.slot e = rp.INT_MISC_RECOVERY_CYCLES_ANY := by
  simp [RawProfile.slot, hk]

theorem storeValue_field_1 (rp : RawProfile) (k : Int) (v : Nat) :
    (storeValue rp k v).INT_MISC_RECOVERY_CYCLES_ANY
      = if k = (INT_MISC_RECOVERY_CYCLES_ANY : Int) then some v
        else rp.INT_MISC_RECOVERY_CYCLES_ANY := by
  simp only [storeValue, Int_xor_eq_zero]
  split_ifs <;> rfl

theorem slot_of_Key_2 (rp : RawProfile) (e : PerfRawEvent)
    (hk : e.Key = "CYCLE_ACTIVITY.STALLS_L2_MISS") :
    rp.slot e = rp.CYCLE_ACTIVITY_STALLS_L2_MISS := by
  simp [RawProfile.slot, hk]

theorem storeValue_field_2 (rp : RawProfile) (k : Int) (v : Nat) :
    (storeValue rp k v).CYCLE_ACTIVITY_STALLS_L2_MISS
      = if k = (CYCLE_ACTIVITY_STALLS_L2_MISS : Int) then some v
        else rp.CYCLE_ACTIVITY_STALLS_L2_MISS := by
  simp only [storeValue, Int_xor_eq_zero]
  split_ifs <;> first | rfl | (exfalso; subst_vars; revert ‹_ = _›; decide)

theorem slot_of_Key_3 (rp : RawProfile) (e : PerfRawEvent)
    (hk : e.Key = "CYCLE_ACTIVITY.STALLS_L3_MISS") :
    rp.slot e = rp.CYCLE_ACTIVITY_STALLS_L3_MISS := by
  simp [RawProfile.slot, hk]

theorem storeValue_field_3 (rp : RawProfile) (k : Int) (v : Nat) :
    (storeValue rp k v).CYCLE_ACTIVITY_STALLS_L3_MISS
      = if k = (CYCLE_ACTIVITY_STALLS_L3_MISS : Int) then some v
        else rp.CYCLE_ACTIVITY_STALLS_L3_MISS := by
  simp only [storeValue, Int_xor_eq_zero]
  split_ifs <;> first | rfl | (exfalso; subst_vars; revert ‹_ = _›; decide)

theorem slot_of_Key_4 (rp : RawProfile) (e : PerfRawEvent)
    (hk : e.Key = "CYCLE_ACTIVITY.STALLS_L1D_MISS") :
    rp.slot e = rp.CYCLE_ACTIVITY_STALLS_L1D_MISS := by
  simp [RawProfile.slot, hk]

theorem storeValue_field_4 (rp : RawProfile) (k : Int) (v : Nat) :
    (storeValue rp k v).CYCLE_ACTIVITY_STALLS_L1D_MISS
      = if k = (CYCLE_ACTIVITY_STALLS_L1D_MISS : Int) then some v
        else rp.CYCLE_ACTIVITY_STALLS_L1D_MISS := by
  simp only [storeValue, Int_xor_eq_zero]
  split_ifs <;> first | rfl | (exfalso; subst_vars; revert ‹_ = _›; decide)

theorem slot_of_Key_5 (rp : RawProfile) (e : PerfRawEvent)
    (hk : e.Key = "CYCLE_ACTIVITY.STALLS_MEM_ANY") :
    rp.slot e = rp.CYCLE_ACTIVITY_STALLS_MEM_ANY := by
  simp [RawProfile.slot, hk]

theorem storeValue_field_5 (rp : RawProfile) (k : Int) (v : Nat) :
    (storeValue rp k v).CYCLE_ACTIVITY_STALLS_MEM_ANY
      = if k = (CYCLE_ACTIVITY_STALLS_MEM_ANY : Int) then some v
        else rp.CYCLE_ACTIVITY_STALLS_MEM_ANY := by
  simp only [storeValue, Int_xor_eq_zero]
  split_ifs <;> first | rfl | (exfalso; subst_vars; revert ‹_ = _›; decide)

theorem storeValue_slot (rp : RawProfile) (k : Int) (v : Nat) (e : PerfRawEvent)
    (he : e ∈ events) :
    (storeValue rp k v).slot e = if k = int e.Config then some v else rp.slot e := by
  rw [int_catalog e he]
  simp only [events, List.mem_cons, List.mem_singleton, List.not_mem_nil, or_false] at he
  rcases he with rfl | rfl | rfl | rfl | rfl
  · rw [slot_of_Key_1 _ _ rfl, slot_of_Key_1 _ _ rfl, storeValue_field_1]
  · rw [slot_of_Key_2 _ _ rfl, slot_of_Key_2 _ _ rfl, storeValue_field_2]
  · rw [slot_of_Key_3 _ _ rfl, slot_of_Key_3 _ _ rfl, storeValue_field_3]
  · rw [slot_of_Key_4 _ _ rfl, slot_of_Key_4 _ _ rfl, storeValue_field_4]
  · rw [slot_of_Key_5 _ _ rfl, slot_of_Key_5 _ _ rfl, storeValue_field_5]

theorem storeValue_TimeEnabled (rp : RawProfile) (k : Int) (v : Nat) :
    (storeValue rp k v).TimeEnabled = rp.TimeEnabled := by
  simp only [storeValue]
  split_ifs <;> rfl

theorem storeValue_TimeRunning (rp : RawProfile) (k : Int) (v : Nat) :
    (storeValue rp k v).TimeRunning = rp.TimeRunning := by
  simp only [storeValue]
  split_ifs <;> rfl

theorem slot_timing_irrelevant (rp : RawProfile) (a b : Option Nat) (e : PerfRawEvent) :
    RawProfile.slot { rp with TimeEnabled := a, TimeRunning := b } e = rp.slot e := rfl

theorem recordValue_slot (rp : RawProfile) (k : Int) (pv : ProfileValue) (e : PerfRawEvent)
    (he : e ∈ events) :
    (recordValue rp k pv).slot e = if k = int e.Config then some pv.Value else rp.slot e := by
  simp only [recordValue]
  rw [storeValue_slot _ _ _ _ he]
  split_ifs <;> rfl

theorem profileLoop_spec (env : Collaborator) (l : ProfilerMap) (err : error) (rp : RawProfile)
    (hist : History) :
    ∃ evs : List Event,
      profileLoop env l err rp hist
        = (appendErrs err evs, recordReads rp (l.zip evs), hist ++ evs) ∧
      Answered env hist evs ∧
      List.Forall₂ (fun e ev => ∃ r, ev = Event.Profile e.2 r) l evs := by
  induction l generalizing err rp hist with
  | nil => exact ⟨[], by simp [profileLoop, appendErrs, recordReads], trivial, List.Forall₂.nil⟩
  | cons e rest ih =>
    obtain ⟨k, h⟩ := e
    rcases hr : env.Profile hist h with err2 | pv
    · obtain ⟨evs, h1, h2, h3⟩ := ih (multierr.Append err (some err2)) rp
        (hist ++ [Event.Profile h (Except.error err2)])
      refine ⟨Event.Profile h (Except.error err2) :: evs, ?_, ⟨?_, h2⟩,
        List.Forall₂.cons ⟨_, rfl⟩ h3⟩
      · simp only [profileLoop, hr, h1, List.append_assoc, List.singleton_append]
        rfl
      · simp [Collaborator.answer, hr]
    · obtain ⟨evs, h1, h2, h3⟩ := ih (multierr.Append err none) (recordValue rp k pv)
        (hist ++ [Event.Profile h (Except.ok pv)])
      refine ⟨Event.Profile h (Except.ok pv) :: evs, ?_, ⟨?_, h2⟩,
        List.Forall₂.cons ⟨_, rfl⟩ h3⟩
      · simp only [profileLoop, hr, h1, List.append_assoc, List.singleton_append]
        rfl
      · simp [Collaborator.answer, hr]

theorem recordReads_slot (e : PerfRawEvent) (he : e ∈ events) (v : Nat) (l : ProfilerMap)
    (evs : List Event) (rp : RawProfile) (hk : (l.map Prod.fst).Nodup)
    (hf : List.Forall₂ (fun en ev => ∃ r, ev = Event.Profile en.2 r) l evs) :
    (recordReads rp (l.zip evs)).slot e = some v ↔
      (∃ h pv, ((int e.Config, h), Event.Profile h (Except.ok pv)) ∈ l.zip evs ∧ pv.Value = v) ∨
      ((∀ h pv, ((int e.Config, h), Event.Profile h (Except.ok pv)) ∉ l.zip evs) ∧
        rp.slot e = some v) := by
  induction hf generalizing rp with
  | nil => simp [recordReads]
  | @cons en ev l evs hhead htail ih =>
    obtain ⟨k, h⟩ := en
    obtain ⟨r, rfl⟩ := hhead
    simp only [List.map_cons, List.nodup_cons] at hk
    obtain ⟨hnot, hk2⟩ := hk
    have hnotin : k = int e.Config → ∀ h2 ev2, ((int e.Config, h2), ev2) ∉ l.zip evs := by
      intro hke h2 ev2 hm
      apply hnot
      have := (List.of_mem_zip hm).1
      rw [hke]
      exact List.mem_map_of_mem Prod.fst this
    have hz : List.zip ((k, h) :: l) (Event.Profile h r :: evs)
        = ((k, h), Event.Profile h r) :: List.zip l evs := rfl
    rw [hz]
    rcases r with err2 | pv
    · have hrec : recordReads rp (((k, h), Event.Profile h (Except.error err2)) :: l.zip evs)
          = recordReads rp (l.zip evs) := rfl
      rw [hrec, ih rp hk2]
      simp only [List.mem_cons, Prod.mk.injEq, Event.Profile.injEq, reduceCtorEq, and_false,
        false_or]
    · have hrec : recordReads rp (((k, h), Event.Profile h (Except.ok pv)) :: l.zip evs)
          = recordReads (recordValue rp k pv) (l.zip evs) := rfl
      rw [hrec, ih _ hk2, recordValue_slot _ _ _ _ he]
      by_cases hke : k = int e.Config
      · have hn := hnotin hke
        rw [if_pos hke]
        constructor
        · rintro (⟨h2, pv2, hm, _⟩ | ⟨_, hv⟩)
          · exact absurd hm (hn _ _)
          · refine Or.inl ⟨h, pv, ?_, Option.some.inj hv⟩
            rw [hke]
            exact List.mem_cons_self _ _
        · rintro (⟨h2, pv2, hm, hv⟩ | ⟨hno, _⟩)
          · rcases List.mem_cons.1 hm with heq | hm2
            · simp only [Prod.mk.injEq, Event.Profile.injEq, Except.ok.injEq] at heq
              obtain ⟨_, _, rfl⟩ := heq
              exact Or.inr ⟨fun h3 pv3 => hn _ _, by rw [hv]⟩
            · exact absurd hm2 (hn _ _)
          · exfalso
            apply hno h pv
            rw [hke]
            exact List.mem_cons_self _ _
      · have hke2 : ¬ int e.Config = k := fun h => hke h.symm
        simp only [if_neg hke, List.mem_cons, Prod.mk.injEq, hke2, false_and, false_or]


theorem zip_of_Forall₂ {α β : Type} {R : α → β → Prop} {l : List α} {evs : List β}
    (hf : List.Forall₂ R l evs) {a : α} (ha : a ∈ l) : ∃ ev, (a, ev) ∈ l.zip evs ∧ R a ev := by
  induction hf with
  | nil => cases ha
  | @cons a1 b1 l1 l2 hh _ ih =>
    have hz : List.zip (a1 :: l1) (b1 :: l2) = (a1, b1) :: List.zip l1 l2 := rfl
    rw [hz]
    rcases List.mem_cons.1 ha with rfl | hm
    · exact ⟨b1, List.mem_cons_self _ _, hh⟩
    · obtain ⟨ev, h1, h2⟩ := ih hm
      exact ⟨ev, List.mem_cons_of_mem _ h1, h2⟩

theorem Profile_eq (env : Collaborator) (p : rawProfiler) (hist : History) :
    ∃ evs : List Event,
      Answered env hist evs ∧
      List.Forall₂ (fun e ev => ∃ r, ev = Event.Profile e.2 r) p.profilers evs ∧
      p.Profile env hist =
        (if (multierr.Errors (appendErrs none evs)).length = p.profilers.length then
            (none, appendErrs none evs)
          else (some (recordReads RawProfile.empty (p.profilers.zip evs)), none),
         hist ++ evs) := by
  obtain ⟨evs, h1, h2, h3⟩ := profileLoop_spec env p.profilers none RawProfile.empty hist
  refine ⟨evs, h2, h3, ?_⟩
  simp only [rawProfiler.Profile, h1]
  split_ifs <;> rfl

/-- C1 (as amended): whenever `Profile` returns a non-nil snapshot, the error
returned alongside it is nil, whether or not reads of that pass failed. -/
theorem Profile_snapshot_error_nil (env : Collaborator) (p : rawProfiler) (hist : History)
    (h : (p.Profile env hist).1.1 ≠ none) : (p.Profile env hist).1.2 = none := by
  simp only [rawProfiler.Profile] at h ⊢
  split_ifs at h ⊢ with hc
  · exact absurd rfl h
  · rfl

theorem Profile_snapshot_error_nil_witness :
    (pAB.Profile envBFails []).1.1 ≠ none ∧ (pAB.Profile envBFails []).1.2 = none :=
  ⟨by decide, Profile_snapshot_error_nil envBFails pAB [] (by decide)⟩

/-- C1 (counterexample): handles A and B are held, A reads value 7 with timing
(100, 100) and B fails. `Profile` returns the snapshot with A = 7, B unset and
timing (100, 100), but the error returned alongside is nil: it does not list
the failure of B. -/
theorem Profile_error_omits_failure :
    (pAB.Profile envBFails []).2
      = [Event.Profile 1 (Except.ok ⟨7, 100, 100⟩),
         Event.Profile 2 (Except.error (GoError.plain (PlainError.errno 9)))] ∧
    (pAB.Profile envBFails []).1.1 = some snapshotA7 ∧
    (pAB.Profile envBFails []).1.2 = none ∧
    multierr.Errors (pAB.Profile envBFails []).1.2 ≠ [PlainError.errno 9] ∧
    ¬ ((pAB.Profile envBFails []).1.2 ≠ none ↔
        ∃ ev ∈ (pAB.Profile envBFails []).2, ev.err ≠ none) := by
  decide


/-- C2: for an aggregator whose map has distinct keys and a pass in which
`Profile` returns a non-nil snapshot: every held handle is read once, and for
every catalog event `e` the slot named after `e` holds `v` if and only if a
handle is held under the key `int e.Config` and its read of this pass
succeeded with value `v`; the slot is unset exactly when no such read
succeeded (the counter is not held, or its read failed). On a pass in which
every read succeeds, the populated slots are exactly those of the held keys. -/
theorem Profile_slots (env : Collaborator) (p : rawProfiler) (hist : History)
    (snap : RawProfile) (hk : (p.profilers.map Prod.fst).Nodup)
    (hs : (p.Profile env hist).1.1 = some snap) :
    ∃ evs : List Event,
      (p.Profile env hist).2 = hist ++ evs ∧
      Answered env hist evs ∧
      List.Forall₂ (fun e ev => ∃ r, ev = Event.Profile e.2 r) p.profilers evs ∧
      (∀ e ∈ events, ∀ v, snap.slot e = some v ↔
        ∃ h pv, ((int e.Config, h), Event.Profile h (Except.ok pv)) ∈ p.profilers.zip evs ∧
          pv.Value = v) ∧
      (∀ e ∈ events, snap.slot e = none ↔
        ∀ h pv, ((int e.Config, h), Event.Profile h (Except.ok pv)) ∉ p.profilers.zip evs) ∧
      ((∀ ev ∈ evs, ev.err = none) →
        ∀ e ∈ events, (snap.slot e).isSome = true ↔ int e.Config ∈ p.profilers.map Prod.fst) := by
  obtain ⟨evs, h1, h2, h3⟩ := Profile_eq env p hist
  rw [h3] at hs ⊢
  have hsnap : snap = recordReads RawProfile.empty (p.profilers.zip evs) := by
    by_cases hc : (multierr.Errors (appendErrs none evs)).length = p.profilers.length
    · rw [if_pos hc] at hs
      cases hs
    · rw [if_neg hc] at hs
      exact (Option.some.inj hs).symm
  have hempty : ∀ e : PerfRawEvent, RawProfile.empty.slot e = none := by
    intro e
    simp only [RawProfile.slot, RawProfile.empty]
    split_ifs <;> rfl
  have hiff : ∀ e ∈ events, ∀ v, snap.slot e = some v ↔
      ∃ h pv, ((int e.Config, h), Event.Profile h (Except.ok pv)) ∈ p.profilers.zip evs ∧
        pv.Value = v := by
    intro e he v
    rw [hsnap, recordReads_slot e he v p.profilers evs RawProfile.empty hk h2, hempty e]
    simp
  refine ⟨evs, rfl, h1, h2, hiff, ?_, ?_⟩
  · intro e he
    constructor
    · intro hn h pv hm
      have := (hiff e he pv.Value).2 ⟨h, pv, hm, rfl⟩
      rw [hn] at this
      cases this
    · intro hn
      rcases hsl : snap.slot e with _ | v
      · rfl
      · obtain ⟨h, pv, hm, _⟩ := (hiff e he v).1 hsl
        exact absurd hm (hn h pv)
  · intro hall e he
    constructor
    · intro hsome
      obtain ⟨v, hv⟩ := Option.isSome_iff_exists.1 hsome
      obtain ⟨h, pv, hm, _⟩ := (hiff e he v).1 hv
      exact List.mem_map_of_mem Prod.fst (List.of_mem_zip hm).1
    · intro hmem
      obtain ⟨⟨k, h⟩, hin, hkeq⟩ := List.mem_map.1 hmem
      simp only at hkeq
      subst hkeq
      obtain ⟨ev, hz, r, rfl⟩ := zip_of_Forall₂ h2 hin
      have hev := hall _ (List.of_mem_zip hz).2
      rcases r with err2 | pv
      · simp [Event.err] at hev
      · exact Option.isSome_iff_exists.2 ⟨pv.Value, (hiff e he pv.Value).2 ⟨h, pv, hz, rfl⟩⟩


theorem Profile_slots_witness :
    (pAB.profilers.map Prod.fst).Nodup ∧
    (pAB.Profile envBFails []).1.1 = some snapshotA7 ∧
    ∃ evs : List Event,
      (pAB.Profile envBFails []).2 = [] ++ evs ∧
      Answered envBFails [] evs ∧
      List.Forall₂ (fun e ev => ∃ r, ev = Event.Profile e.2 r) pAB.profilers evs ∧
      (∀ e ∈ events, ∀ v, snapshotA7.slot e = some v ↔
        ∃ h pv, ((int e.Config, h), Event.Profile h (Except.ok pv)) ∈ pAB.profilers.zip evs ∧
          pv.Value = v) ∧
      (∀ e ∈ events, snapshotA7.slot e = none ↔
        ∀ h pv, ((int e.Config, h), Event.Profile h (Except.ok pv)) ∉ pAB.profilers.zip evs) ∧
      ((∀ ev ∈ evs, ev.err = none) →
        ∀ e ∈ events,
          (snapshotA7.slot e).isSome = true ↔ int e.Config ∈ pAB.profilers.map Prod.fst) :=
  ⟨by decide, by decide, Profile_slots envBFails pAB [] snapshotA7 (by decide) (by decide)⟩

/-- C3 (the code at the failing input): handles A and B are held and both
reads fail, that of A with a composite of two errors. The composite of the pass
then stands for three failures, which is not the number of handles, so
`Profile` returns a non-nil, empty snapshot and a nil error. -/
theorem Profile_all_fail_composite :
    pAB.Profile envAllFailOneComposite []
      = ((some RawProfile.empty, none),
         [Event.Profile 1
            (Except.error (GoError.multi [PlainError.errno 5, PlainError.errno 11])),
          Event.Profile 2 (Except.error (GoError.plain (PlainError.errno 9)))]) := by
  decide

/-- C4 (the code at the failing input): handles A and B are held, the read of
A succeeds and that of B fails with a composite of two errors. The composite of
the pass then stands for two failures, the number of handles, so `Profile`
returns a nil snapshot and a non-nil error although a read succeeded. -/
theorem Profile_one_succeeds_composite :
    pAB.Profile envBFailsComposite []
      = ((none, some (GoError.multi [PlainError.errno 5, PlainError.errno 11])),
         [Event.Profile 1 (Except.ok ⟨7, 100, 100⟩),
          Event.Profile 2
            (Except.error (GoError.multi [PlainError.errno 5, PlainError.errno 11]))]) := by
  decide

/-- When no read of the pass returns a composite error, `Profile` returns a
nil snapshot exactly when every read failed, and a non-nil error only then;
the error then stands for the failure of every held handle. -/
theorem Profile_of_plain_errors (env : Collaborator) (p : rawProfiler) (hist : History) :
    ∃ evs : List Event,
      (p.Profile env hist).2 = hist ++ evs ∧
      Answered env hist evs ∧
      List.Forall₂ (fun e ev => ∃ r, ev = Event.Profile e.2 r) p.profilers evs ∧
      ((∀ ev ∈ evs, ∀ es, ev.err ≠ some (GoError.multi es)) →
        ((p.Profile env hist).1.1 = none ↔ ∀ ev ∈ evs, ev.err ≠ none) ∧
        ((p.Profile env hist).1.2 ≠ none → ∀ ev ∈ evs, ev.err ≠ none) ∧
        ((p.Profile env hist).1.1 = none →
          multierr.Errors (p.Profile env hist).1.2
            = evs.flatMap (fun ev => multierr.Errors ev.err))) := by
  obtain ⟨evs, h1, h2, h3⟩ := Profile_eq env p hist
  refine ⟨evs, by rw [h3], h1, h2, ?_⟩
  intro hp
  have hlen : (multierr.Errors (appendErrs none evs)).length
      = (evs.filter (fun ev => decide (ev.err ≠ none))).length := by
    rw [Errors_appendErrs]
    exact flatMap_Errors_length evs hp
  have hall : (multierr.Errors (appendErrs none evs)).length = p.profilers.length ↔
      ∀ ev ∈ evs, ev.err ≠ none := by
    rw [hlen, h2.length_eq, List.filter_length_eq_length]
    simp
  rw [h3]
  by_cases hc : (multierr.Errors (appendErrs none evs)).length = p.profilers.length
  · simp only [if_pos hc, true_iff, ne_eq, true_implies]
    refine ⟨hall.1 hc, fun _ => hall.1 hc, ?_⟩
    rw [Errors_appendErrs]
    rfl
  · simp only [if_neg hc, reduceCtorEq, false_iff, ne_eq, not_true_eq_false, false_implies,
      true_and, and_true]
    exact fun h => hc (hall.2 h)


/-! ## Construction -/

theorem mapInsert_of_not_mem (m : ProfilerMap) (k : Int) (v : Profiler)
    (h : k ∉ m.map Prod.fst) : mapInsert m k v = m ++ [(k, v)] := by
  have hany : m.any (fun e => decide (e.1 = k)) = false := by
    rw [List.any_eq_false]
    intro e he hek
    apply h
    have : e.1 = k := by simpa using hek
    rw [← this]
    exact List.mem_map_of_mem Prod.fst he
  simp [mapInsert, hany]

theorem events_keys_nodup : (events.map (fun en => int en.Config)).Nodup := by
  decide

theorem newRawProfilerLoop_spec (env : Collaborator) (pid cpu : Int) (opts : List Int)
    (l : List PerfRawEvent) (m : ProfilerMap) (e : error) (hist : History)
    (hnd : (l.map (fun en => int en.Config)).Nodup)
    (hdis : ∀ k ∈ m.map Prod.fst, k ∉ l.map (fun en => int en.Config)) :
    ∃ evs : List Event,
      newRawProfilerLoop env pid cpu opts l m e hist
        = (m ++ (l.zip evs).filterMap opened, appendErrs e evs, hist ++ evs) ∧
      Answered env hist evs ∧
      List.Forall₂ (fun en ev => ∃ r, ev = Event.NewProfiler en.Type_ en.Config pid cpu opts r)
        l evs := by
  induction l generalizing m e hist with
  | nil =>
    exact ⟨[], by simp [newRawProfilerLoop, appendErrs], trivial, List.Forall₂.nil⟩
  | cons en rest ih =>
    simp only [List.map_cons, List.nodup_cons] at hnd
    obtain ⟨hnot, hnd2⟩ := hnd
    rcases hr : env.NewProfiler hist en.Type_ en.Config pid cpu opts with err | h
    · obtain ⟨evs, h1, h2, h3⟩ := ih m (multierr.Append e (some err))
        (hist ++ [Event.NewProfiler en.Type_ en.Config pid cpu opts (Except.error err)]) hnd2
        (fun k hk hk2 => hdis k hk (List.mem_cons_of_mem _ hk2))
      refine ⟨Event.NewProfiler en.Type_ en.Config pid cpu opts (Except.error err) :: evs, ?_,
        ⟨?_, h2⟩, List.Forall₂.cons ⟨_, rfl⟩ h3⟩
      · simp only [newRawProfilerLoop, hr, h1, List.append_assoc, List.singleton_append]
        rfl
      · simp [Collaborator.answer, hr]
    · have hins : mapInsert m (int en.Config) h = m ++ [(int en.Config, h)] :=
        mapInsert_of_not_mem m _ h (fun hk => hdis _ hk (List.mem_cons_self _ _))
      obtain ⟨evs, h1, h2, h3⟩ := ih (m ++ [(int en.Config, h)]) e
        (hist ++ [Event.NewProfiler en.Type_ en.Config pid cpu opts (Except.ok h)]) hnd2
        (by
          intro k hk hk2
          simp only [List.map_append, List.map_cons, List.map_nil, List.mem_append,
            List.mem_singleton] at hk
          rcases hk with hk | rfl
          · exact hdis k hk (List.mem_cons_of_mem _ hk2)
          · exact hnot hk2)
      refine ⟨Event.NewProfiler en.Type_ en.Config pid cpu opts (Except.ok h) :: evs, ?_,
        ⟨?_, h2⟩, List.Forall₂.cons ⟨_, rfl⟩ h3⟩
      · have hz : List.zip (en :: rest)
            (Event.NewProfiler en.Type_ en.Config pid cpu opts (Except.ok h) :: evs)
            = (en, Event.NewProfiler en.Type_ en.Config pid cpu opts (Except.ok h))
              :: List.zip rest evs := rfl
        rw [hz, List.filterMap_cons]
        simp only [newRawProfilerLoop, hr, hins, h1, List.append_assoc, List.singleton_append,
          opened, appendErrs_cons, Event.err, multierr.Append_none_right]
      · simp [Collaborator.answer, hr]


theorem mem_filterMap_opened (pid cpu : Int) (opts : List Int) (l : List PerfRawEvent)
    (evs : List Event)
    (hf : List.Forall₂
      (fun en ev => ∃ r, ev = Event.NewProfiler en.Type_ en.Config pid cpu opts r) l evs)
    (k : Int) (h : Profiler) :
    (k, h) ∈ (l.zip evs).filterMap opened ↔
      ∃ en, (en, Event.NewProfiler en.Type_ en.Config pid cpu opts (Except.ok h)) ∈ l.zip evs ∧
        k = int en.Config := by
  rw [List.mem_filterMap]
  constructor
  · rintro ⟨⟨en, ev⟩, hm, ho⟩
    obtain ⟨r, rfl⟩ := (List.forall₂_iff_zip.1 hf).2 hm
    rcases r with err | h2
    · simp [opened] at ho
    · simp only [opened, Option.some.injEq, Prod.mk.injEq] at ho
      obtain ⟨hk, rfl⟩ := ho
      exact ⟨en, hm, hk.symm⟩
  · rintro ⟨en, hm, rfl⟩
    exact ⟨_, hm, rfl⟩

theorem keys_filterMap_opened (pid cpu : Int) (opts : List Int) (l : List PerfRawEvent)
    (evs : List Event)
    (hf : List.Forall₂
      (fun en ev => ∃ r, ev = Event.NewProfiler en.Type_ en.Config pid cpu opts r) l evs) :
    List.Sublist (((l.zip evs).filterMap opened).map Prod.fst)
      (l.map (fun en => int en.Config)) ∧
    ((l.zip evs).filterMap opened).length
      = (evs.filter (fun ev => decide (ev.err = none))).length := by
  induction hf with
  | nil => exact ⟨List.Sublist.slnil, rfl⟩
  | @cons en ev l evs hh _ ih =>
    obtain ⟨r, rfl⟩ := hh
    have hz : List.zip (en :: l) (Event.NewProfiler en.Type_ en.Config pid cpu opts r :: evs)
        = (en, Event.NewProfiler en.Type_ en.Config pid cpu opts r) :: List.zip l evs := rfl
    rw [hz, List.filterMap_cons, List.filter_cons]
    rcases r with err | h
    · simp only [opened, Event.err, reduceCtorEq, decide_False, Bool.false_eq_true, if_false,
        List.map_cons]
      exact ⟨ih.1.cons _, ih.2⟩
    · simp only [opened, Event.err, decide_True, if_true, List.map_cons, List.length_cons,
        ih.2, and_true]
      exact ih.1.cons₂ _


theorem NewRawProfiler_eq (env : Collaborator) (hist : History) (pid cpu : Int)
    (opts : List Int) :
    ∃ evs : List Event,
      NewRawProfiler env hist pid cpu opts
        = ((some { profilers := (events.zip evs).filterMap opened }, appendErrs none evs),
           hist ++ evs) ∧
      Answered env hist evs ∧
      List.Forall₂ (fun en ev => ∃ r, ev = Event.NewProfiler en.Type_ en.Config pid cpu opts r)
        events evs := by
  obtain ⟨evs, h1, h2, h3⟩ := newRawProfilerLoop_spec env pid cpu opts events [] none hist
    events_keys_nodup (fun k hk => by cases hk)
  refine ⟨evs, ?_, h2, h3⟩
  simp only [NewRawProfiler, h1, List.nil_append]

/-- C9: whatever the collaborator answers, `NewRawProfiler` makes exactly one
open attempt per catalog entry, in catalog order, with that entry's type and
configuration value and the given pid, cpu and options, failures stopping
nothing. The map of the returned aggregator holds a handle under a key if and
only if some catalog entry with that configuration value opened and open
returned that handle; its keys are distinct, and the number of held handles is
the number of opens that succeeded. -/
theorem NewRawProfiler_handles (env : Collaborator) (hist : History) (pid cpu : Int)
    (opts : List Int) :
    ∃ (evs : List Event) (p : rawProfiler),
      (NewRawProfiler env hist pid cpu opts).1.1 = some p ∧
      (NewRawProfiler env hist pid cpu opts).2 = hist ++ evs ∧
      Answered env hist evs ∧
      List.Forall₂ (fun en ev => ∃ r, ev = Event.NewProfiler en.Type_ en.Config pid cpu opts r)
        events evs ∧
      (∀ k h, (k, h) ∈ p.profilers ↔
        ∃ en, (en, Event.NewProfiler en.Type_ en.Config pid cpu opts (Except.ok h))
            ∈ events.zip evs ∧ k = int en.Config) ∧
      (p.profilers.map Prod.fst).Nodup ∧
      p.profilers.length = (evs.filter (fun ev => decide (ev.err = none))).length := by
  obtain ⟨evs, h1, h2, h3⟩ := NewRawProfiler_eq env hist pid cpu opts
  have hk := keys_filterMap_opened pid cpu opts events evs h3
  refine ⟨evs, { profilers := (events.zip evs).filterMap opened }, by rw [h1], by rw [h1], h2,
    h3, ?_, ?_, hk.2⟩
  · intro k h
    exact mem_filterMap_opened pid cpu opts events evs h3 k h
  · exact events_keys_nodup.sublist hk.1

/-- C10: whatever the collaborator answers, `NewRawProfiler` returns a non-nil
aggregator; the returned error is nil if and only if every open attempt
succeeded; the failures it stands for are exactly those of the errors the
failed opens returned, in catalog order; and when every open fails the
aggregator's map is empty. -/
theorem NewRawProfiler_error (env : Collaborator) (hist : History) (pid cpu : Int)
    (opts : List Int) :
    (NewRawProfiler env hist pid cpu opts).1.1 ≠ none ∧
    ∃ evs : List Event,
      (NewRawProfiler env hist pid cpu opts).2 = hist ++ evs ∧
      Answered env hist evs ∧
      List.Forall₂ (fun en ev => ∃ r, ev = Event.NewProfiler en.Type_ en.Config pid cpu opts r)
        events evs ∧
      ((NewRawProfiler env hist pid cpu opts).1.2 = none ↔ ∀ ev ∈ evs, ev.err = none) ∧
      multierr.Errors (NewRawProfiler env hist pid cpu opts).1.2
        = evs.flatMap (fun ev => multierr.Errors ev.err) ∧
      ((∀ ev ∈ evs, ev.err ≠ none) →
        (NewRawProfiler env hist pid cpu opts).1.1 = some { profilers := [] }) := by
  obtain ⟨evs, h1, h2, h3⟩ := NewRawProfiler_eq env hist pid cpu opts
  have hk := keys_filterMap_opened pid cpu opts events evs h3
  rw [h1]
  refine ⟨by simp, evs, rfl, h2, h3, ?_, ?_, ?_⟩
  · simp [appendErrs_eq_none]
  · rw [Errors_appendErrs]
    rfl
  · intro hall
    have hlen : ((events.zip evs).filterMap opened).length = 0 := by
      rw [hk.2, List.length_eq_zero, List.filter_eq_nil_iff]
      intro ev hev
      simpa using hall ev hev
    rw [List.length_eq_zero] at hlen
    simp only [hlen]


/-- Construction on a concrete run: the open of event A fails and the four
other opens succeed. The aggregator holds the four handles that opened, each
under its configuration value, and the error is the failure of A. -/
theorem NewRawProfiler_first_open_fails :
    (NewRawProfiler envAFailsOpen [] 42 (-1) [0]).1
      = (some { profilers := [(0x50005a3, 1), (0x60006a3, 2), (0xc000ca3, 3), (0x140014a3, 4)] },
         some (GoError.plain (PlainError.errno 2))) ∧
    (NewRawProfiler envAFailsOpen [] 42 (-1) [0]).2
      = [Event.NewProfiler 4 0x20010d 42 (-1) [0]
           (Except.error (GoError.plain (PlainError.errno 2))),
         Event.NewProfiler 4 0x50005a3 42 (-1) [0] (Except.ok 1),
         Event.NewProfiler 4 0x60006a3 42 (-1) [0] (Except.ok 2),
         Event.NewProfiler 4 0xc000ca3 42 (-1) [0] (Except.ok 3),
         Event.NewProfiler 4 0x140014a3 42 (-1) [0] (Except.ok 4)] := by
  decide


/-! ## The aggregator over its lifetime -/

theorem call_fst (env : Collaborator) (m : Method) (st : rawProfiler × History) :
    (rawProfiler.call env m st).1 = st.1 := by
  cases m <;> rfl

theorem calls_fst (env : Collaborator) (ms : List Method) (st : rawProfiler × History) :
    (rawProfiler.calls env ms st).1 = st.1 := by
  induction ms generalizing st with
  | nil => rfl
  | cons m ms ih => rw [rawProfiler.calls, ih, call_fst]

/-- C11: the aggregator `NewRawProfiler` returns has all its keys among the
configuration values of the catalog, and after any finite sequence of `Start`,
`Reset`, `Stop`, `Close` and `Profile` calls, whatever the handles answer, its
map is the map of construction time: same keys, same handles, nothing added,
removed or replaced. -/
theorem handle_map_invariant (env : Collaborator) (hist : History) (pid cpu : Int)
    (opts : List Int) (ms : List Method) :
    ∃ p : rawProfiler,
      (NewRawProfiler env hist pid cpu opts).1.1 = some p ∧
      (∀ k ∈ p.profilers.map Prod.fst, ∃ en ∈ events, k = (en.Config : Int)) ∧
      (rawProfiler.calls env ms (p, (NewRawProfiler env hist pid cpu opts).2)).1.profilers
        = p.profilers ∧
      (∀ k ∈ (rawProfiler.calls env ms
            (p, (NewRawProfiler env hist pid cpu opts).2)).1.profilers.map Prod.fst,
        ∃ en ∈ events, k = (en.Config : Int)) := by
  obtain ⟨evs, h1, _, h3⟩ := NewRawProfiler_eq env hist pid cpu opts
  have hk := (keys_filterMap_opened pid cpu opts events evs h3).1
  have hsub : ∀ k ∈ ((events.zip evs).filterMap opened).map Prod.fst,
      ∃ en ∈ events, k = (en.Config : Int) := by
    intro k hkm
    obtain ⟨en, hen, hke⟩ := List.mem_map.1 (hk.subset hkm)
    exact ⟨en, hen, by rw [← hke, int_catalog en hen]⟩
  refine ⟨{ profilers := (events.zip evs).filterMap opened }, by rw [h1], hsub, ?_, ?_⟩
  · rw [calls_fst]
  · rw [calls_fst]
    exact hsub

/-- C12 (as amended): calling `Close` and then `Close` again leaves the map
of the aggregator as it was, and the second call does what the first did: it
calls close once more on every held handle and returns the composite of what
those calls return. It calls nothing only when no handle is held, and its error
is nil exactly when no handle's second close fails. -/
theorem Close_twice (env : Collaborator) (p : rawProfiler) (hist : History) :
    (rawProfiler.calls env [Method.Close, Method.Close] (p, hist)).1 = p ∧
    ∃ evs1 evs2 : List Event,
      p.Close env hist = (appendErrs none evs1, hist ++ evs1) ∧
      p.Close env (hist ++ evs1) = (appendErrs none evs2, hist ++ evs1 ++ evs2) ∧
      (rawProfiler.calls env [Method.Close, Method.Close] (p, hist)).2
        = hist ++ evs1 ++ evs2 ∧
      Answered env hist evs1 ∧ Answered env (hist ++ evs1) evs2 ∧
      List.Forall₂ (fun e ev => ∃ r, ev = Event.lifecycle Op.Close e.2 r) p.profilers evs1 ∧
      List.Forall₂ (fun e ev => ∃ r, ev = Event.lifecycle Op.Close e.2 r) p.profilers evs2 ∧
      (evs2 = [] ↔ p.profilers = []) ∧
      ((p.Close env (hist ++ evs1)).1 = none ↔ ∀ ev ∈ evs2, ev.err = none) := by
  obtain ⟨evs1, h1, h2, h3⟩ := fanOut_spec env Op.Close p.profilers none hist
  obtain ⟨evs2, k1, k2, k3⟩ := fanOut_spec env Op.Close p.profilers none (hist ++ evs1)
  have c1 : p.Close env hist = (appendErrs none evs1, hist ++ evs1) := h1
  have c2 : p.Close env (hist ++ evs1) = (appendErrs none evs2, hist ++ evs1 ++ evs2) := k1
  refine ⟨calls_fst env _ _, evs1, evs2, c1, c2, ?_, h2, k2, h3, k3, ?_, ?_⟩
  · simp only [rawProfiler.calls, rawProfiler.call, c1, c2]
  · have hlen := k3.length_eq
    constructor
    · intro he
      rw [he] at hlen
      exact List.length_eq_zero.1 hlen
    · intro he
      rw [he] at hlen
      exact List.length_eq_zero.1 hlen.symm
  · rw [c2]
    simp [appendErrs_eq_none]

/-- C12 (counterexample): the aggregator holds handle 2 only, and every close
succeeds. The second `Close` calls close on handle 2 a second time and returns
a nil error: it is neither a no-op nor an error. -/
theorem Close_twice_calls_again :
    pB.Close envOk [] = (none, [Event.lifecycle Op.Close 2 none]) ∧
    pB.Close envOk (pB.Close envOk []).2
      = (none, [Event.lifecycle Op.Close 2 none, Event.lifecycle Op.Close 2 none]) ∧
    ¬ ((pB.Close envOk (pB.Close envOk []).2).2 = (pB.Close envOk []).2 ∨
        (pB.Close envOk (pB.Close envOk []).2).1 ≠ none) := by
  decide

/-- C16: on an aggregator that holds zero handles, `Profile` returns a nil
snapshot together with a nil error, and calls no handle. -/
theorem Profile_empty (env : Collaborator) (p : rawProfiler) (hist : History)
    (h : p.profilers = []) : p.Profile env hist = ((none, none), hist) := by
  simp [rawProfiler.Profile, h, profileLoop, multierr.Errors]

theorem Profile_empty_witness :
    pEmpty.profilers = [] ∧ pEmpty.Profile envBFails [] = ((none, none), []) :=
  ⟨rfl, Profile_empty envBFails pEmpty [] rfl⟩


/-! ## The catalog keys -/

theorem catalog_key_injective :
    ∀ en ∈ events, ∀ en2 ∈ events, (int en.Config = int en2.Config ↔ en2 = en) := by
  decide

/-- C15: the configuration values of the five catalog entries are pairwise
distinct; each is below `2 ^ 31`, so the conversion to `int` returns it
unchanged, on a 32-bit and on a 64-bit platform, and the converted values stay
pairwise distinct. Hence inserting a catalog entry's handle into a map that
holds other catalog entries only adds an entry and replaces none; the test
`(k ^ c) == 0` holds exactly when `k = c`; and a value stored under a catalog
key lands in the slot of that catalog entry and in no other. -/
theorem catalog_configs_distinct :
    (events.map (fun en => en.Config)).Nodup ∧
    (∀ en ∈ events, en.Config < 2 ^ 31 ∧ intOfUint64 32 en.Config = (en.Config : Int) ∧
      intOfUint64 64 en.Config = (en.Config : Int)) ∧
    (events.map (fun en => intOfUint64 32 en.Config)).Nodup ∧
    (events.map (fun en => int en.Config)).Nodup ∧
    (∀ en ∈ events, ∀ (m : ProfilerMap) (h : Profiler),
      (∀ k ∈ m.map Prod.fst, ∃ en2 ∈ events, en2 ≠ en ∧ k = int en2.Config) →
      mapInsert m (int en.Config) h = m ++ [(int en.Config, h)]) ∧
    (∀ k c : Int, Int.xor k c = 0 ↔ k = c) ∧
    (∀ en ∈ events, ∀ en2 ∈ events, ∀ (rp : RawProfile) (v : Nat),
      (storeValue rp (int en.Config) v).slot en2 = if en2 = en then some v else rp.slot en2) := by
  refine ⟨by decide, by decide, by decide, events_keys_nodup, ?_, Int_xor_eq_zero, ?_⟩
  · intro en he m h hm
    apply mapInsert_of_not_mem
    intro hk
    obtain ⟨en2, he2, hne, hk2⟩ := hm _ hk
    exact hne ((catalog_key_injective en he en2 he2).1 hk2)
  · intro en he en2 he2 rp v
    rw [storeValue_slot rp _ v en2 he2]
    by_cases h : en2 = en
    · rw [if_pos h, if_pos (by rw [h])]
    · rw [if_neg h, if_neg (fun hk => h ((catalog_key_injective en he en2 he2).1 hk))]


/-! ## The shared timing fields -/

theorem recordValue_TimeEnabled (rp : RawProfile) (k : Int) (pv : ProfileValue) :
    (recordValue rp k pv).TimeEnabled
      = if rp.TimeEnabled = none then some pv.TimeEnabled else rp.TimeEnabled := by
  simp only [recordValue, storeValue_TimeEnabled]
  split_ifs <;> rfl

theorem recordValue_TimeRunning (rp : RawProfile) (k : Int) (pv : ProfileValue) :
    (recordValue rp k pv).TimeRunning
      = if rp.TimeRunning = none then some pv.TimeRunning else rp.TimeRunning := by
  simp only [recordValue, storeValue_TimeRunning]
  split_ifs <;> rfl

theorem recordReads_timing_set (zs : List ((Int × Profiler) × Event)) (rp : RawProfile)
    (a b : Nat) (ha : rp.TimeEnabled = some a) (hb : rp.TimeRunning = some b) :
    (recordReads rp zs).TimeEnabled = some a ∧ (recordReads rp zs).TimeRunning = some b := by
  induction zs generalizing rp with
  | nil => exact ⟨ha, hb⟩
  | cons z zs ih =>
    obtain ⟨e, ev⟩ := z
    cases ev with
    | NewProfiler t c pid cpu opts r => exact ih rp ha hb
    | lifecycle op h r => exact ih rp ha hb
    | Profile h r =>
      cases r with
      | error err2 => exact ih rp ha hb
      | ok pv =>
        have hrec : recordReads rp ((e, Event.Profile h (Except.ok pv)) :: zs)
            = recordReads (recordValue rp e.1 pv) zs := rfl
        rw [hrec]
        apply ih
        · rw [recordValue_TimeEnabled, ha]
          rfl
        · rw [recordValue_TimeRunning, hb]
          rfl

theorem recordReads_first_ok {l : ProfilerMap} {evs : List Event}
    (hf : List.Forall₂ (fun e ev => ∃ r, ev = Event.Profile e.2 r) l evs) :
    ∀ (rp : RawProfile) (pre post : List Event) (h : Profiler) (pv : ProfileValue),
      evs = pre ++ Event.Profile h (Except.ok pv) :: post →
      (∀ ev ∈ pre, ev.err ≠ none) →
      rp.TimeEnabled = none → rp.TimeRunning = none →
      (recordReads rp (l.zip evs)).TimeEnabled = some pv.TimeEnabled ∧
      (recordReads rp (l.zip evs)).TimeRunning = some pv.TimeRunning := by
  induction hf with
  | nil =>
    intro rp pre post h pv he
    cases pre <;> cases he
  | @cons e ev l evs hh _ ih =>
    intro rp pre post h pv he hpre hTE hTR
    obtain ⟨r, rfl⟩ := hh
    have hz : List.zip (e :: l) (Event.Profile e.2 r :: evs)
        = (e, Event.Profile e.2 r) :: List.zip l evs := rfl
    rw [hz]
    cases pre with
    | nil =>
      simp only [List.nil_append, List.cons.injEq, Event.Profile.injEq] at he
      obtain ⟨⟨_, rfl⟩, _⟩ := he
      have hrec : recordReads rp ((e, Event.Profile e.2 (Except.ok pv)) :: l.zip evs)
          = recordReads (recordValue rp e.1 pv) (l.zip evs) := rfl
      rw [hrec]
      apply recordReads_timing_set
      · rw [recordValue_TimeEnabled, if_pos hTE]
      · rw [recordValue_TimeRunning, if_pos hTR]
    | cons a pre2 =>
      simp only [List.cons_append, List.cons.injEq] at he
      obtain ⟨rfl, he2⟩ := he
      have hfail := hpre _ (List.mem_cons_self _ _)
      cases r with
      | ok pv2 => exact absurd rfl hfail
      | error err2 =>
        have hrec : recordReads rp ((e, Event.Profile e.2 (Except.error err2)) :: l.zip evs)
            = recordReads rp (l.zip evs) := rfl
        rw [hrec]
        exact ih rp pre2 post h pv he2 (fun ev hm => hpre ev (List.mem_cons_of_mem _ hm)) hTE hTR

theorem recordReads_timing_cases {l : ProfilerMap} {evs : List Event}
    (hf : List.Forall₂ (fun e ev => ∃ r, ev = Event.Profile e.2 r) l evs) (rp : RawProfile)
    (hTE : rp.TimeEnabled = none) (hTR : rp.TimeRunning = none) :
    (∃ h pv, Event.Profile h (Except.ok pv) ∈ evs ∧
        (recordReads rp (l.zip evs)).TimeEnabled = some pv.TimeEnabled ∧
        (recordReads rp (l.zip evs)).TimeRunning = some pv.TimeRunning) ∨
    (recordReads rp (l.zip evs) = rp ∧ ∀ ev ∈ evs, ev.err ≠ none) := by
  induction hf with
  | nil => exact Or.inr ⟨rfl, fun ev hm => by cases hm⟩
  | @cons e ev l evs hh _ ih =>
    obtain ⟨r, rfl⟩ := hh
    have hz : List.zip (e :: l) (Event.Profile e.2 r :: evs)
        = (e, Event.Profile e.2 r) :: List.zip l evs := rfl
    rw [hz]
    cases r with
    | ok pv =>
      have hrec : recordReads rp ((e, Event.Profile e.2 (Except.ok pv)) :: l.zip evs)
          = recordReads (recordValue rp e.1 pv) (l.zip evs) := rfl
      rw [hrec]
      refine Or.inl ⟨e.2, pv, List.mem_cons_self _ _, ?_⟩
      apply recordReads_timing_set
      · rw [recordValue_TimeEnabled, if_pos hTE]
      · rw [recordValue_TimeRunning, if_pos hTR]
    | error err2 =>
      have hrec : recordReads rp ((e, Event.Profile e.2 (Except.error err2)) :: l.zip evs)
          = recordReads rp (l.zip evs) := rfl
      rw [hrec]
      rcases ih with ⟨h, pv, hm, h1, h2⟩ | ⟨h1, h2⟩
      · exact Or.inl ⟨h, pv, List.mem_cons_of_mem _ hm, h1, h2⟩
      · refine Or.inr ⟨h1, ?_⟩
        intro ev hm
        rcases List.mem_cons.1 hm with rfl | hm2
        · simp [Event.err]
        · exact h2 ev hm2

theorem Profile_built (env : Collaborator) (p : rawProfiler) (hist : History) :
    ∃ evs : List Event,
      (p.Profile env hist).2 = hist ++ evs ∧
      Answered env hist evs ∧
      List.Forall₂ (fun e ev => ∃ r, ev = Event.Profile e.2 r) p.profilers evs ∧
      p.builtProfile env hist = recordReads RawProfile.empty (p.profilers.zip evs) ∧
      ((multierr.Errors (appendErrs none evs)).length ≠ p.profilers.length →
        (p.Profile env hist).1.1 = some (p.builtProfile env hist)) ∧
      (∀ snap, (p.Profile env hist).1.1 = some snap → snap = p.builtProfile env hist ∧
        (multierr.Errors (appendErrs none evs)).length ≠ p.profilers.length) := by
  obtain ⟨evs, h1, h2, h3⟩ := profileLoop_spec env p.profilers none RawProfile.empty hist
  refine ⟨evs, ?_, h2, h3, ?_, ?_, ?_⟩
  · simp only [rawProfiler.Profile, h1]
    split_ifs <;> rfl
  · simp only [rawProfiler.builtProfile, h1]
  · intro hne
    simp only [rawProfiler.Profile, rawProfiler.builtProfile, h1, if_neg hne]
  · intro snap hs
    simp only [rawProfiler.Profile, rawProfiler.builtProfile, h1] at hs ⊢
    by_cases hc : (multierr.Errors (appendErrs none evs)).length = p.profilers.length
    · rw [if_pos hc] at hs
      cases hs
    · rw [if_neg hc] at hs
      exact ⟨(Option.some.inj hs).symm, hc⟩


theorem returned_of_plain_success (l : ProfilerMap) (evs : List Event)
    (hf : List.Forall₂ (fun e ev => ∃ r, ev = Event.Profile e.2 r) l evs)
    (hp : ∀ ev ∈ evs, ∀ es, ev.err ≠ some (GoError.multi es))
    (hc : (multierr.Errors (appendErrs none evs)).length = l.length) :
    ∀ ev ∈ evs, ev.err ≠ none := by
  rw [Errors_appendErrs, multierr.Errors, List.nil_append, flatMap_Errors_length evs hp,
    hf.length_eq, List.filter_length_eq_length] at hc
  intro ev hm
  simpa using hc ev hm

/-- C13: for every visiting order and every pass in which the reads before
some read all failed and that read succeeded, the snapshot `Profile` builds,
and so the snapshot it returns, has the `TimeEnabled` and `TimeRunning` of that
first successful read, whatever the later reads yield. When no failed read
returned a composite error, that snapshot is returned. -/
theorem Profile_timing_first_success (env : Collaborator) (p : rawProfiler) (hist : History)
    (pre post : List Event) (h : Profiler) (pv : ProfileValue)
    (hev : (p.Profile env hist).2 = hist ++ (pre ++ Event.Profile h (Except.ok pv) :: post))
    (hpre : ∀ ev ∈ pre, ev.err ≠ none) :
    (p.builtProfile env hist).TimeEnabled = some pv.TimeEnabled ∧
    (p.builtProfile env hist).TimeRunning = some pv.TimeRunning ∧
    (∀ snap, (p.Profile env hist).1.1 = some snap →
      snap.TimeEnabled = some pv.TimeEnabled ∧ snap.TimeRunning = some pv.TimeRunning) ∧
    ((∀ ev ∈ pre ++ post, ∀ es, ev.err ≠ some (GoError.multi es)) →
      (p.Profile env hist).1.1 = some (p.builtProfile env hist)) := by
  obtain ⟨evs, h1, _, h3, h4, h5, h6⟩ := Profile_built env p hist
  have hevs : evs = pre ++ Event.Profile h (Except.ok pv) :: post :=
    List.append_cancel_left (h1.symm.trans hev)
  have ht := recordReads_first_ok h3 RawProfile.empty pre post h pv hevs hpre rfl rfl
  rw [← h4] at ht
  refine ⟨ht.1, ht.2, ?_, ?_⟩
  · intro snap hs
    rw [(h6 snap hs).1]
    exact ht
  · intro hp
    apply h5
    intro hc
    have hall := returned_of_plain_success p.profilers evs h3 (by
      intro ev hm es
      rw [hevs] at hm
      rcases List.mem_append.1 hm with hm1 | hm1
      · exact hp ev (List.mem_append_left _ hm1) es
      · rcases List.mem_cons.1 hm1 with rfl | hm2
        · simp [Event.err]
        · exact hp ev (List.mem_append_right _ hm2) es) hc
    have := hall (Event.Profile h (Except.ok pv)) (by rw [hevs]; simp)
    simp [Event.err] at this

theorem Profile_timing_first_success_witness :
    (pBA.Profile envBFails []).2
      = [] ++ ([Event.Profile 2 (Except.error (GoError.plain (PlainError.errno 9)))]
          ++ Event.Profile 1 (Except.ok ⟨7, 100, 100⟩) :: []) ∧
    (∀ ev ∈ [Event.Profile 2 (Except.error (GoError.plain (PlainError.errno 9)))],
      ev.err ≠ none) ∧
    ((pBA.builtProfile envBFails []).TimeEnabled = some 100 ∧
      (pBA.builtProfile envBFails []).TimeRunning = some 100 ∧
      (∀ snap, (pBA.Profile envBFails []).1.1 = some snap →
        snap.TimeEnabled = some 100 ∧ snap.TimeRunning = some 100) ∧
      ((∀ ev ∈ [Event.Profile 2 (Except.error (GoError.plain (PlainError.errno 9)))] ++ [],
          ∀ es, ev.err ≠ some (GoError.multi es)) →
        (pBA.Profile envBFails []).1.1 = some (pBA.builtProfile envBFails []))) :=
  ⟨by decide, by decide,
    Profile_timing_first_success envBFails pBA []
      [Event.Profile 2 (Except.error (GoError.plain (PlainError.errno 9)))] [] 1 ⟨7, 100, 100⟩
      (by decide) (by decide)⟩

/-- C17: in the snapshot `Profile` builds, either both timing fields are set
and both come from one successful read of the pass, or both are unset and every
read of the pass failed; so `TimeEnabled` is set if and only if `TimeRunning`
is, and if and only if at least one read succeeded. A snapshot `Profile`
returns is the one it built, and when no failed read returned a composite
error it has both timing fields set and at least one read succeeded. -/
theorem Profile_timing_fields (env : Collaborator) (p : rawProfiler) (hist : History) :
    ∃ evs : List Event,
      (p.Profile env hist).2 = hist ++ evs ∧
      Answered env hist evs ∧
      List.Forall₂ (fun e ev => ∃ r, ev = Event.Profile e.2 r) p.profilers evs ∧
      ((∃ h pv, Event.Profile h (Except.ok pv) ∈ evs ∧
          (p.builtProfile env hist).TimeEnabled = some pv.TimeEnabled ∧
          (p.builtProfile env hist).TimeRunning = some pv.TimeRunning) ∨
        ((p.builtProfile env hist).TimeEnabled = none ∧
          (p.builtProfile env hist).TimeRunning = none ∧ ∀ ev ∈ evs, ev.err ≠ none)) ∧
      ((p.builtProfile env hist).TimeEnabled.isSome = true ↔
        (p.builtProfile env hist).TimeRunning.isSome = true) ∧
      ((p.builtProfile env hist).TimeEnabled.isSome = true ↔ ∃ ev ∈ evs, ev.err = none) ∧
      (∀ snap, (p.Profile env hist).1.1 = some snap → snap = p.builtProfile env hist) ∧
      ((∀ ev ∈ evs, ∀ es, ev.err ≠ some (GoError.multi es)) →
        ∀ snap, (p.Profile env hist).1.1 = some snap →
          snap.TimeEnabled.isSome = true ∧ snap.TimeRunning.isSome = true ∧
            ∃ ev ∈ evs, ev.err = none) := by
  obtain ⟨evs, h1, h2, h3, h4, _, h6⟩ := Profile_built env p hist
  have hcases := recordReads_timing_cases h3 RawProfile.empty rfl rfl
  rw [← h4] at hcases
  have hdich : (∃ h pv, Event.Profile h (Except.ok pv) ∈ evs ∧
        (p.builtProfile env hist).TimeEnabled = some pv.TimeEnabled ∧
        (p.builtProfile env hist).TimeRunning = some pv.TimeRunning) ∨
      ((p.builtProfile env hist).TimeEnabled = none ∧
        (p.builtProfile env hist).TimeRunning = none ∧ ∀ ev ∈ evs, ev.err ≠ none) := by
    rcases hcases with hl | ⟨hr1, hr2⟩
    · exact Or.inl hl
    · refine Or.inr ⟨?_, ?_, hr2⟩
      · rw [hr1]
        rfl
      · rw [hr1]
        rfl
  have hEnabled : (p.builtProfile env hist).TimeEnabled.isSome = true ↔
      ∃ ev ∈ evs, ev.err = none := by
    rcases hdich with ⟨h, pv, hm, hte, _⟩ | ⟨hte, _, hall⟩
    · rw [hte]
      exact ⟨fun _ => ⟨_, hm, rfl⟩, fun _ => rfl⟩
    · rw [hte]
      constructor
      · intro hf
        cases hf
      · rintro ⟨ev, hm, he⟩
        exact absurd he (hall ev hm)
  have hRunning : (p.builtProfile env hist).TimeRunning.isSome = true ↔
      ∃ ev ∈ evs, ev.err = none := by
    rcases hdich with ⟨h, pv, hm, _, htr⟩ | ⟨_, htr, hall⟩
    · rw [htr]
      exact ⟨fun _ => ⟨_, hm, rfl⟩, fun _ => rfl⟩
    · rw [htr]
      constructor
      · intro hf
        cases hf
      · rintro ⟨ev, hm, he⟩
        exact absurd he (hall ev hm)
  refine ⟨evs, h1, h2, h3, hdich, hEnabled.trans hRunning.symm, hEnabled,
    fun snap hs => (h6 snap hs).1, ?_⟩
  intro hp snap hs
  obtain ⟨hsnap, hne⟩ := h6 snap hs
  have hex : ∃ ev ∈ evs, ev.err = none := by
    by_contra hno
    apply hne
    have hall : ∀ ev ∈ evs, ev.err ≠ none := fun ev hm he => hno ⟨ev, hm, he⟩
    rw [Errors_appendErrs, multierr.Errors, List.nil_append, flatMap_Errors_length evs hp,
      h3.length_eq, List.filter_length_eq_length]
    intro ev hm
    simpa using hall ev hm
  rw [hsnap]
  exact ⟨hEnabled.2 hex, hRunning.2 hex, hex⟩


/-! ## Independence of the visiting order -/

theorem mem_zip_map {α β : Type} (f : α → β) (l : List α) (a : α) (b : β) :
    (a, b) ∈ l.zip (l.map f) ↔ a ∈ l ∧ f a = b := by
  induction l with
  | nil => simp
  | cons x l ih =>
    have hz : List.zip (x :: l) (List.map f (x :: l)) = (x, f x) :: List.zip l (l.map f) := rfl
    rw [hz, List.mem_cons, ih, List.mem_cons, Prod.mk.injEq]
    constructor
    · rintro (⟨rfl, rfl⟩ | ⟨h1, h2⟩)
      · exact ⟨Or.inl rfl, rfl⟩
      · exact ⟨Or.inr h1, h2⟩
    · rintro ⟨rfl | h1, h2⟩
      · exact Or.inl ⟨rfl, h2.symm⟩
      · exact Or.inr ⟨h1, h2⟩

theorem reads_of_fixed (env : Collaborator) (hread : ∀ a b h, env.Profile a h = env.Profile b h)
    {l : ProfilerMap} {evs : List Event}
    (hf : List.Forall₂ (fun e ev => ∃ r, ev = Event.Profile e.2 r) l evs) :
    ∀ hist, Answered env hist evs →
      evs = l.map (fun e => Event.Profile e.2 (env.Profile [] e.2)) := by
  induction hf with
  | nil => intro _ _; rfl
  | @cons e ev l evs hh _ ih =>
    intro hist ha
    obtain ⟨r, rfl⟩ := hh
    obtain ⟨ha1, ha2⟩ := ha
    simp only [Collaborator.answer, Event.Profile.injEq, true_and] at ha1
    rw [List.map_cons, ← ih _ ha2, ← ha1, hread hist [] e.2]

theorem lifecycles_of_fixed (env : Collaborator) (op : Op)
    (hlife : ∀ a b o h, env.lifecycle a o h = env.lifecycle b o h)
    {l : ProfilerMap} {evs : List Event}
    (hf : List.Forall₂ (fun e ev => ∃ r, ev = Event.lifecycle op e.2 r) l evs) :
    ∀ hist, Answered env hist evs →
      evs = l.map (fun e => Event.lifecycle op e.2 (env.lifecycle [] op e.2)) := by
  induction hf with
  | nil => intro _ _; rfl
  | @cons e ev l evs hh _ ih =>
    intro hist ha
    obtain ⟨r, rfl⟩ := hh
    obtain ⟨ha1, ha2⟩ := ha
    simp only [Collaborator.answer, Event.lifecycle.injEq, true_and] at ha1
    rw [List.map_cons, ← ih _ ha2, ← ha1, hlife hist [] op e.2]

theorem Errors_appendErrs_map {α : Type} (f : α → Event) (l : List α) :
    multierr.Errors (appendErrs none (l.map f))
      = l.flatMap (fun a => multierr.Errors (f a).err) := by
  rw [Errors_appendErrs, multierr.Errors, List.nil_append]
  induction l with
  | nil => rfl
  | cons a l ih => simp only [List.map_cons, List.flatMap_cons, ih]

theorem appendErrs_map_eq_none {α : Type} (f : α → Event) (l : List α) :
    appendErrs none (l.map f) = none ↔ ∀ a ∈ l, (f a).err = none := by
  rw [appendErrs_eq_none]
  simp


theorem empty_slot (e : PerfRawEvent) : RawProfile.empty.slot e = none := by
  simp only [RawProfile.slot, RawProfile.empty]
  split_ifs <;> rfl

theorem Profile_fixed (env : Collaborator) (hread : ∀ a b h, env.Profile a h = env.Profile b h)
    (p : rawProfiler) (hist : History) :
    (p.Profile env hist).1 =
      if (p.profilers.flatMap
            (fun e => multierr.Errors (Event.Profile e.2 (env.Profile [] e.2)).err)).length
          = p.profilers.length then
        (none, appendErrs none
          (p.profilers.map (fun e => Event.Profile e.2 (env.Profile [] e.2))))
      else
        (some (recordReads RawProfile.empty (p.profilers.zip
          (p.profilers.map (fun e => Event.Profile e.2 (env.Profile [] e.2))))), none) := by
  obtain ⟨evs, h1, h2, h3⟩ := Profile_eq env p hist
  have hevs := reads_of_fixed env hread h2 hist h1
  rw [h3, hevs, Errors_appendErrs_map]

theorem slot_fixed (env : Collaborator) (l : ProfilerMap) (hk : (l.map Prod.fst).Nodup)
    (e : PerfRawEvent) (he : e ∈ events) (v : Nat) :
    (recordReads RawProfile.empty
        (l.zip (l.map (fun e => Event.Profile e.2 (env.Profile [] e.2))))).slot e = some v ↔
      ∃ h pv, (int e.Config, h) ∈ l ∧ env.Profile [] h = Except.ok pv ∧ pv.Value = v := by
  have hf : List.Forall₂ (fun e ev => ∃ r, ev = Event.Profile e.2 r) l
      (l.map (fun e => Event.Profile e.2 (env.Profile [] e.2))) := by
    clear hk
    induction l with
    | nil => exact List.Forall₂.nil
    | cons a l ih => exact List.Forall₂.cons ⟨_, rfl⟩ ih
  rw [recordReads_slot e he v l _ RawProfile.empty hk hf, empty_slot]
  simp only [mem_zip_map, Event.Profile.injEq, true_and, reduceCtorEq, and_false, or_false]
  constructor
  · rintro ⟨h, pv, ⟨hm, hr⟩, hv⟩
    exact ⟨h, pv, hm, hr, hv⟩
  · rintro ⟨h, pv, hm, hr, hv⟩
    exact ⟨h, pv, ⟨hm, hr⟩, hv⟩

theorem lifecycle_fixed (env : Collaborator)
    (hlife : ∀ a b o h, env.lifecycle a o h = env.lifecycle b o h)
    (p : rawProfiler) (op : Op) (hist : History) :
    (p.lifecycle env op hist).1 =
      if op = Op.Start ∧ p.profilers = [] then ErrNoProfiler
      else appendErrs none
        (p.profilers.map (fun e => Event.lifecycle op e.2 (env.lifecycle [] op e.2))) := by
  by_cases hc : op = Op.Start ∧ p.profilers = []
  · obtain ⟨rfl, he⟩ := hc
    simp [rawProfiler.lifecycle, rawProfiler.Start, he]
  · rw [if_neg hc, lifecycle_eq_fanOut env p op hist (fun ho he => hc ⟨ho, he⟩)]
    obtain ⟨evs, h1, h2, h3⟩ := fanOut_spec env op p.profilers none hist
    rw [h1, lifecycles_of_fixed env op hlife h3 hist h2]

/-- C14: let the answer of every handle to a read and to a lifecycle call be
fixed (the same whatever was called before), and let the entries of one map be
visited in two orders. Then `Profile` returns a nil snapshot under one order if
and only if under the other, a nil error under one if and only if under the
other, errors that stand for the same failures up to their order, and
snapshots whose per-event slots are equal; and each of `Start`, `Reset`,
`Stop` and `Close` returns a nil error under one order if and only if under the
other, with the same failures up to their order. -/
theorem order_independent (env : Collaborator) (p1 p2 : rawProfiler) (hist1 hist2 : History)
    (hperm : p1.profilers.Perm p2.profilers) (hk : (p1.profilers.map Prod.fst).Nodup)
    (hread : ∀ a b h, env.Profile a h = env.Profile b h)
    (hlife : ∀ a b o h, env.lifecycle a o h = env.lifecycle b o h) :
    ((p1.Profile env hist1).1.1 = none ↔ (p2.Profile env hist2).1.1 = none) ∧
    ((p1.Profile env hist1).1.2 = none ↔ (p2.Profile env hist2).1.2 = none) ∧
    (multierr.Errors (p1.Profile env hist1).1.2).Perm
      (multierr.Errors (p2.Profile env hist2).1.2) ∧
    (∀ s1 s2, (p1.Profile env hist1).1.1 = some s1 → (p2.Profile env hist2).1.1 = some s2 →
      ∀ e ∈ events, s1.slot e = s2.slot e) ∧
    (∀ op, ((p1.lifecycle env op hist1).1 = none ↔ (p2.lifecycle env op hist2).1 = none) ∧
      (multierr.Errors (p1.lifecycle env op hist1).1).Perm
        (multierr.Errors (p2.lifecycle env op hist2).1)) := by
  have hk2 : (p2.profilers.map Prod.fst).Nodup := (hperm.map Prod.fst).nodup_iff.1 hk
  have hcount : (p1.profilers.flatMap
        (fun e => multierr.Errors (Event.Profile e.2 (env.Profile [] e.2)).err)).length
      = (p2.profilers.flatMap
        (fun e => multierr.Errors (Event.Profile e.2 (env.Profile [] e.2)).err)).length :=
    (hperm.flatMap_right _).length_eq
  have hlen : p1.profilers.length = p2.profilers.length := hperm.length_eq
  have hnone : appendErrs none
        (p1.profilers.map (fun e => Event.Profile e.2 (env.Profile [] e.2))) = none ↔
      appendErrs none
        (p2.profilers.map (fun e => Event.Profile e.2 (env.Profile [] e.2))) = none := by
    rw [appendErrs_map_eq_none, appendErrs_map_eq_none]
    exact ⟨fun h a ha => h a (hperm.mem_iff.2 ha), fun h a ha => h a (hperm.mem_iff.1 ha)⟩
  have herrs : (multierr.Errors (appendErrs none
        (p1.profilers.map (fun e => Event.Profile e.2 (env.Profile [] e.2))))).Perm
      (multierr.Errors (appendErrs none
        (p2.profilers.map (fun e => Event.Profile e.2 (env.Profile [] e.2))))) := by
    rw [Errors_appendErrs_map, Errors_appendErrs_map]
    exact hperm.flatMap_right _
  rw [Profile_fixed env hread p1 hist1, Profile_fixed env hread p2 hist2]
  refine ⟨?_, ?_, ?_, ?_, ?_⟩
  · rw [hcount, hlen]
    split_ifs <;> simp
  · rw [hcount, hlen]
    split_ifs
    · exact hnone
    · exact Iff.rfl
  · rw [hcount, hlen]
    split_ifs
    · exact herrs
    · exact List.Perm.refl _
  · intro s1 s2 hs1 hs2 e he
    rw [hcount, hlen] at hs1
    split_ifs at hs1 hs2 with hc
    have e1 := Option.some.inj hs1
    have e2 := Option.some.inj hs2
    apply Option.ext
    intro v
    rw [← e1, ← e2, Option.mem_def, Option.mem_def, slot_fixed env _ hk e he v,
      slot_fixed env _ hk2 e he v]
    constructor
    · rintro ⟨h, pv, hm, hr⟩
      exact ⟨h, pv, hperm.mem_iff.1 hm, hr⟩
    · rintro ⟨h, pv, hm, hr⟩
      exact ⟨h, pv, hperm.mem_iff.2 hm, hr⟩
  · intro op
    rw [lifecycle_fixed env hlife p1 op hist1, lifecycle_fixed env hlife p2 op hist2]
    have hempty : p1.profilers = [] ↔ p2.profilers = [] := by
      rw [← List.length_eq_zero, ← List.length_eq_zero, hlen]
    have hcond : (op = Op.Start ∧ p1.profilers = []) ↔ (op = Op.Start ∧ p2.profilers = []) := by
      rw [hempty]
    by_cases hc : op = Op.Start ∧ p1.profilers = []
    · rw [if_pos hc, if_pos (hcond.1 hc)]
      exact ⟨Iff.rfl, List.Perm.refl _⟩
    · rw [if_neg hc, if_neg (fun h => hc (hcond.2 h))]
      constructor
      · rw [appendErrs_map_eq_none, appendErrs_map_eq_none]
        exact ⟨fun h a ha => h a (hperm.mem_iff.2 ha), fun h a ha => h a (hperm.mem_iff.1 ha)⟩
      · rw [Errors_appendErrs_map, Errors_appendErrs_map]
        exact hperm.flatMap_right _


theorem order_independent_witness :
    pAB.profilers.Perm pBA.profilers ∧
    (pAB.profilers.map Prod.fst).Nodup ∧
    (∀ a b h, envBFails.Profile a h = envBFails.Profile b h) ∧
    (∀ a b o h, envBFails.lifecycle a o h = envBFails.lifecycle b o h) ∧
    (((pAB.Profile envBFails []).1.1 = none ↔ (pBA.Profile envBFails []).1.1 = none) ∧
      ((pAB.Profile envBFails []).1.2 = none ↔ (pBA.Profile envBFails []).1.2 = none) ∧
      (multierr.Errors (pAB.Profile envBFails []).1.2).Perm
        (multierr.Errors (pBA.Profile envBFails []).1.2) ∧
      (∀ s1 s2, (pAB.Profile envBFails []).1.1 = some s1 →
        (pBA.Profile envBFails []).1.1 = some s2 → ∀ e ∈ events, s1.slot e = s2.slot e) ∧
      (∀ op, ((pAB.lifecycle envBFails op []).1 = none ↔
          (pBA.lifecycle envBFails op []).1 = none) ∧
        (multierr.Errors (pAB.lifecycle envBFails op []).1).Perm
          (multierr.Errors (pBA.lifecycle envBFails op []).1))) :=
  ⟨List.Perm.swap _ _ _, by decide, fun _ _ _ => rfl, fun _ _ _ _ => rfl,
    order_independent envBFails pAB pBA [] [] (List.Perm.swap _ _ _) (by decide)
      (fun _ _ _ => rfl) (fun _ _ _ _ => rfl)⟩

/-- The shared timing fields do depend on the visiting order: with two
handles whose reads succeed with different timings, the snapshot carries the
timing of whichever handle is visited first. -/
theorem Profile_timing_depends_on_order :
    pAB.profilers.Perm pBA.profilers ∧
    (pAB.Profile envTwoTimings []).1.1
      = some { TimeEnabled := some 100, TimeRunning := some 100,
               INT_MISC_RECOVERY_CYCLES_ANY := some 1, CYCLE_ACTIVITY_STALLS_L2_MISS := some 2,
               CYCLE_ACTIVITY_STALLS_L3_MISS := none, CYCLE_ACTIVITY_STALLS_L1D_MISS := none,
               CYCLE_ACTIVITY_STALLS_MEM_ANY := none } ∧
    (pBA.Profile envTwoTimings []).1.1
      = some { TimeEnabled := some 200, TimeRunning := some 200,
               INT_MISC_RECOVERY_CYCLES_ANY := some 1, CYCLE_ACTIVITY_STALLS_L2_MISS := some 2,
               CYCLE_ACTIVITY_STALLS_L3_MISS := none, CYCLE_ACTIVITY_STALLS_L1D_MISS := none,
               CYCLE_ACTIVITY_STALLS_MEM_ANY := none } :=
  ⟨List.Perm.swap _ _ _, by decide, by decide⟩

end perf
